import Mathlib

/-!
# Verification of the dictionary-matrix ingestion and linking core

This file gives a shallow embedding, in Lean 4, of the core routines of the
`dictionary-matrix` service — the OntoLex/TEI/JSON canonicalization engine
(`app/rdf.py`), the import pipeline (`app/importing/ops.py`), the linking
orchestrator (`app/linking/ops.py`) and the task dispatcher (`app/tasks.py`) —
and proves (or refutes, with concrete counterexamples) a list of claims made
about those routines.

Modelling conventions used throughout:

* Python `dict`s with dynamic string keys are modelled as insertion-ordered
  association lists `List (String × v)`; `dict[k] = v` appends or replaces,
  lookup returns the value of the last assignment of the key.
* Python strings that may be `None` are `Option String`; Python truthiness
  (`None` and `""` are falsy) is made explicit by `pyTruthy` / `pyOrS`.
* Raised exceptions are `Except String` with the exception's message.
* Fully-qualified XML attribute names (lxml's `{namespace}local` form) are
  written with their conventional prefixes (`xml:lang`, `rdf:about`,
  `rdf:resource`, `rdf:ID`, `xml:id`) since the code always uses the one
  fixed namespace for each of them.
-/

deriving instance DecidableEq for Except

namespace DictionaryMatrix

/-! ## Python-semantics helpers -/

/-- Python dict lookup (`d.get(k)`): the value of the *last* binding of `k`
in insertion order, or `none`.  For dicts built by comprehensions with
duplicate keys, later bindings override earlier ones. -/
def pyDictGet {κ v : Type} [DecidableEq κ] : List (κ × v) → κ → Option v
  | [], _ => none
  | p :: t, k =>
    match pyDictGet t k with
    | some x => some x
    | none => if p.1 = k then some p.2 else none

/-- Python `d.get(k, default)`. -/
def pyDictGetD {κ v : Type} [DecidableEq κ] (l : List (κ × v)) (k : κ) (d : v) : v :=
  (pyDictGet l k).getD d

/-- Python `d[k] = v`.  Since all observations of our dict models go through
the last-wins lookup `pyDictGet`, in-place update is modelled by appending
the new binding. -/
def pyDictSet {κ v : Type} [DecidableEq κ] (l : List (κ × v)) (k : κ) (x : v) :
    List (κ × v) :=
  l ++ [(k, x)]

/-- Python string truthiness for an optional string: `None` and `""` are falsy. -/
def pyTruthy : Option String → Bool
  | none => false
  | some s => s ≠ ""

/-- Python `a or b` on optional strings (`None`/`""` falsy). -/
def pyOrS (a b : Option String) : Option String :=
  if pyTruthy a then a else b

/-! ## Part-of-speech taxonomy maps (`app/rdf.py` lines 559–587)

`_UD2LEXINFO` maps UniversalDependencies POS tags to Lexinfo POS names;
`_LEXINFO2UD` is built as its key/value swap.  `lexinfo_pos_to_ud` and
`ud_to_lexinfo_pos` are `dict.get(k, k)` lookups (identity outside the table).
-/

def UD2LEXINFO : List (String × String) := [
  ("ADJ", "adjective"),
  ("ADP", "adposition"),
  ("ADV", "adverb"),
  ("AUX", "auxiliary"),
  ("CCONJ", "coordinatingConjunction"),
  ("DET", "determiner"),
  ("INTJ", "interjection"),
  ("NOUN", "commonNoun"),
  ("NUM", "numeral"),
  ("PART", "particle"),
  ("PRON", "pronoun"),
  ("PROPN", "properNoun"),
  ("PUNCT", "punctuation"),
  ("SCONJ", "subordinatingConjunction"),
  ("SYM", "symbol"),
  ("VERB", "verb"),
  ("X", "other")]

/-- `_LEXINFO2UD = {v: k for k, v in _UD2LEXINFO.items()}` -/
def LEXINFO2UD : List (String × String) :=
  UD2LEXINFO.map (fun p => (p.2, p.1))

/-- `lexinfo_pos_to_ud(pos) = _LEXINFO2UD.get(pos, pos)` -/
def lexinfo_pos_to_ud (pos : String) : String :=
  pyDictGetD LEXINFO2UD pos pos

/-- `ud_to_lexinfo_pos(ud_pos) = _UD2LEXINFO.get(ud_pos, ud_pos)` -/
def ud_to_lexinfo_pos (ud_pos : String) : String :=
  pyDictGetD UD2LEXINFO ud_pos ud_pos

/-! ## ISO 639 language-code normalization (`app/rdf.py` lines 522–554) -/

def ISO639_3TO1 : List (String × String) := [
  ("aar", "aa"), ("abk", "ab"), ("afr", "af"), ("aka", "ak"), ("amh", "am"),
  ("ara", "ar"), ("arg", "an"), ("asm", "as"), ("ava", "av"), ("ave", "ae"),
  ("aym", "ay"), ("aze", "az"), ("bak", "ba"), ("bam", "bm"), ("bel", "be"),
  ("ben", "bn"), ("bis", "bi"), ("bod", "bo"), ("bos", "bs"), ("bre", "br"),
  ("bul", "bg"), ("cat", "ca"), ("ces", "cs"), ("cha", "ch"), ("che", "ce"),
  ("chu", "cu"), ("chv", "cv"), ("cor", "kw"), ("cos", "co"), ("cre", "cr"),
  ("cym", "cy"), ("dan", "da"), ("deu", "de"), ("div", "dv"), ("dzo", "dz"),
  ("ell", "el"), ("eng", "en"), ("epo", "eo"), ("est", "et"), ("eus", "eu"),
  ("ewe", "ee"), ("fao", "fo"), ("fas", "fa"), ("fij", "fj"), ("fin", "fi"),
  ("fra", "fr"), ("fry", "fy"), ("ful", "ff"), ("gla", "gd"), ("gle", "ga"),
  ("glg", "gl"), ("glv", "gv"), ("grn", "gn"), ("guj", "gu"), ("hat", "ht"),
  ("hau", "ha"), ("hbs", "sh"), ("heb", "he"), ("her", "hz"), ("hin", "hi"),
  ("hmo", "ho"), ("hrv", "hr"), ("hun", "hu"), ("hye", "hy"), ("ibo", "ig"),
  ("ido", "io"), ("iii", "ii"), ("iku", "iu"), ("ile", "ie"), ("ina", "ia"),
  ("ind", "id"), ("ipk", "ik"), ("isl", "is"), ("ita", "it"), ("jav", "jv"),
  ("jpn", "ja"), ("kal", "kl"), ("kan", "kn"), ("kas", "ks"), ("kat", "ka"),
  ("kau", "kr"), ("kaz", "kk"), ("khm", "km"), ("kik", "ki"), ("kin", "rw"),
  ("kir", "ky"), ("kom", "kv"), ("kon", "kg"), ("kor", "ko"), ("kua", "kj"),
  ("kur", "ku"), ("lao", "lo"), ("lat", "la"), ("lav", "lv"), ("lim", "li"),
  ("lin", "ln"), ("lit", "lt"), ("ltz", "lb"), ("lub", "lu"), ("lug", "lg"),
  ("mah", "mh"), ("mal", "ml"), ("mar", "mr"), ("mkd", "mk"), ("mlg", "mg"),
  ("mlt", "mt"), ("mon", "mn"), ("mri", "mi"), ("msa", "ms"), ("mya", "my"),
  ("nau", "na"), ("nav", "nv"), ("nbl", "nr"), ("nde", "nd"), ("ndo", "ng"),
  ("nep", "ne"), ("nld", "nl"), ("nno", "nn"), ("nob", "nb"), ("nor", "no"),
  ("nya", "ny"), ("oci", "oc"), ("oji", "oj"), ("ori", "or"), ("orm", "om"),
  ("oss", "os"), ("pan", "pa"), ("pli", "pi"), ("pol", "pl"), ("por", "pt"),
  ("pus", "ps"), ("que", "qu"), ("roh", "rm"), ("ron", "ro"), ("run", "rn"),
  ("rus", "ru"), ("sag", "sg"), ("san", "sa"), ("sin", "si"), ("slk", "sk"),
  ("slv", "sl"), ("sme", "se"), ("smo", "sm"), ("sna", "sn"), ("snd", "sd"),
  ("som", "so"), ("sot", "st"), ("spa", "es"), ("sqi", "sq"), ("srd", "sc"),
  ("srp", "sr"), ("ssw", "ss"), ("sun", "su"), ("swa", "sw"), ("swe", "sv"),
  ("tah", "ty"), ("tam", "ta"), ("tat", "tt"), ("tel", "te"), ("tgk", "tg"),
  ("tgl", "tl"), ("tha", "th"), ("tir", "ti"), ("ton", "to"), ("tsn", "tn"),
  ("tso", "ts"), ("tuk", "tk"), ("tur", "tr"), ("twi", "tw"), ("uig", "ug"),
  ("ukr", "uk"), ("urd", "ur"), ("uzb", "uz"), ("ven", "ve"), ("vie", "vi"),
  ("vol", "vo"), ("wln", "wa"), ("wol", "wo"), ("xho", "xh"), ("yid", "yi"),
  ("yor", "yo"), ("zha", "za"), ("zho", "zh"), ("zul", "zu")]

/-- `to_iso639`: strip an IETF/BCP47 region suffix (`"en-US"` → `"en"`,
i.e. keep the part before the first `-`), then map an ISO 639-3 code to 639-1
where the table knows it, else pass the value through unchanged.
(Implemented over the character list so that it evaluates in the kernel.) -/
def to_iso639 (lang : String) : String :=
  let lang := if lang.data.contains '-'
    then String.mk (lang.data.takeWhile (fun c => ¬ c = '-'))
    else lang
  pyDictGetD ISO639_3TO1 lang lang

/-- `to_iso639` lifted to Python's optional strings: `to_iso639(None)` is
`_ISO639_3TO1.get(None, None) = None` in the source. -/
def to_iso639Opt : Option String → Option String
  | none => none
  | some s => some (to_iso639 s)

/-! ## String utilities

Kernel-computable counterparts of the Python string operations the source
uses (`str.strip`, `re.sub`, `str.split`, `str.startswith`), implemented over
character lists so that concrete documents evaluate by `decide`. -/

/-- Last element of a list, with a default (kernel-computable). -/
def lastD {α : Type} (l : List α) (d : α) : α :=
  l.reverse.headD d

/-- Python `str.split(sep)` for a one-character separator. -/
def splitChar (sep : Char) : List Char → List (List Char)
  | [] => [[]]
  | c :: rest =>
    match splitChar sep rest with
    | g :: gs => if c = sep then [] :: g :: gs else (c :: g) :: gs
    | [] => [[c]]

/-- Python `str.strip()`: drop leading and trailing whitespace. -/
def pyStrip (s : String) : String :=
  String.mk (((s.data.dropWhile Char.isWhitespace).reverse.dropWhile
    Char.isWhitespace).reverse)

/-- One pass of `re.sub(r'\s{2,}', ' ', text)`: a maximal run of two or more
whitespace characters becomes a single space; a lone whitespace character is
kept as it is.  `pending` holds the whitespace run read so far. -/
def collapseWsGo (pending : List Char) : List Char → List Char
  | [] => if 2 ≤ pending.length then [' '] else pending
  | c :: rest =>
    if c.isWhitespace then collapseWsGo (pending ++ [c]) rest
    else (if 2 ≤ pending.length then [' '] else pending) ++ c :: collapseWsGo [] rest

/-- `removeprefix(string, prefix)` (`app/rdf.py` lines 41–44):
strip `prefix` when the string is non-empty and starts with it. -/
def rmPrefix (s p : String) : String :=
  if ¬ s = "" ∧ p.data.isPrefixOf s.data then String.mk (s.data.drop p.data.length)
  else s

/-- `strip_ns(tag)`: the part after the last `}` (an lxml tag), else after the
last `#` (a namespace URI), else the tag unchanged. -/
def strip_ns (tag : String) : String :=
  if tag.data.contains '}' then String.mk (lastD (splitChar '}' tag.data) [])
  else if tag.data.contains '#' then String.mk (lastD (splitChar '#' tag.data) [])
  else tag

/-! ## The XML-tree-of-truth and the tree-to-model extractor
(`_ontolex_etree_to_dict`, `app/rdf.py` lines 115–373)

The tree the extractor walks is modelled with local tag names (matching is
namespace-agnostic by local name), a separate namespace URI (used only by the
Dublin-Core metadata probe), and attributes keyed by their conventional
prefixed names.  The parsed input is always an `ElementTree`, so the
tree-level `.//`-searches see the document element itself, while searches
scoped to a found element see only its proper descendants; `xml_lang` of the
tree root finds no element and yields `None`.

Not modelled: the `targetLanguages` accumulation (the set of `xml:lang`
values seen by `xml_lang` during extraction, which only feeds the dictionary's
`targetLanguage` metadata — no claim concerns it), and the `settings.DEBUG`
re-validation of extracted entries (DEBUG is off in production). -/

def ONTOLEX : String := "http://www.w3.org/ns/lemon/ontolex#"
def LEXINFO : String := "http://www.lexinfo.net/ontology/3.0/lexinfo#"
def DC : String := "http://purl.org/dc/elements/1.1/"
def DCTERMS : String := "http://purl.org/dc/terms/"
def RDF_IMPORT_BASE : String := "elexis:dict"

/-- The closed set of entry tags (`LexicalEntry.values()`). -/
def ENTRY_TAGS : List String := ["LexicalEntry", "Word", "Affix", "MultiWordExpression"]

/-- An XML element: namespace URI, local tag name, attributes, own text, and
children. -/
inductive Xml where
  | elem (ns : String) (tag : String) (attrs : List (String × String))
         (text : String) (children : List Xml)

def Xml.ns : Xml → String
  | .elem n _ _ _ _ => n

def Xml.tag : Xml → String
  | .elem _ t _ _ _ => t

def Xml.attrs : Xml → List (String × String)
  | .elem _ _ a _ _ => a

def Xml.text : Xml → String
  | .elem _ _ _ t _ => t

def Xml.children : Xml → List Xml
  | .elem _ _ _ _ c => c

/-- `el.attrib.get(k)`. -/
def Xml.attr (x : Xml) (k : String) : Option String :=
  pyDictGet x.attrs k

mutual
/-- Decidable equality for the nested tree type (the automatic deriving does
not handle nested inductives). -/
def xmlDecEq : (a b : Xml) → Decidable (a = b)
  | .elem n1 t1 at1 x1 c1, .elem n2 t2 at2 x2 c2 =>
    haveI : Decidable (c1 = c2) := xmlDecEqL c1 c2
    decidable_of_iff (n1 = n2 ∧ t1 = t2 ∧ at1 = at2 ∧ x1 = x2 ∧ c1 = c2)
      (by rw [Xml.elem.injEq])
def xmlDecEqL : (as bs : List Xml) → Decidable (as = bs)
  | [], [] => isTrue rfl
  | [], _ :: _ => isFalse (by simp)
  | _ :: _, [] => isFalse (by simp)
  | p :: ps, q :: qs =>
    haveI : Decidable (p = q) := xmlDecEq p q
    haveI : Decidable (ps = qs) := xmlDecEqL ps qs
    decidable_of_iff (p = q ∧ ps = qs) (by rw [List.cons.injEq])
end

instance : DecidableEq Xml := xmlDecEq

mutual
/-- The text content of the subtree, in document order (own text, then the
children's).  Tail text of mixed content is not distinguished: each element
carries one text field. -/
def rawText : Xml → String
  | .elem _ _ _ t cs => t ++ rawTextL cs
def rawTextL : List Xml → String
  | [] => ""
  | c :: cs => rawText c ++ rawTextL cs
end

/-- `text_content(el)`: serialized text, stripped, with whitespace runs of two
or more collapsed to one space. -/
def text_content (x : Xml) : String :=
  String.mk (collapseWsGo [] (pyStrip (rawText x)).data)

/-- A tree node together with the context its XPath axes see: the nearest
ancestor-or-self `xml:lang` attribute value (raw, unconverted) and whether an
ancestor-or-self element is entry-tagged (`is_entry_descendant`). -/
structure AnnNode where
  nearLang : Option String
  inEntry : Bool
  node : Xml
deriving DecidableEq

mutual
/-- Preorder (document-order) list of descendants-or-self, annotated with
nearest `xml:lang` and entry-ancestry. -/
def annNodes (lang : Option String) (inE : Bool) : Xml → List AnnNode
  | .elem ns tag attrs text cs =>
    let lang' := match pyDictGet attrs "xml:lang" with
      | some v => some v
      | none => lang
    let inE' := inE || decide (tag ∈ ENTRY_TAGS)
    ⟨lang', inE', .elem ns tag attrs text cs⟩ :: annNodesL lang' inE' cs
def annNodesL (lang : Option String) (inE : Bool) : List Xml → List AnnNode
  | [] => []
  | c :: cs => annNodes lang inE c ++ annNodesL lang inE cs
end

/-- Document-order annotated proper descendants of an annotated node. -/
def annDesc (a : AnnNode) : List AnnNode :=
  annNodesL a.nearLang a.inEntry a.node.children

/-- `xml_lang(el)`: the nearest ancestor-or-self `xml:lang` attribute,
converted by `to_iso639` when non-empty (an empty attribute value skips the
conversion and stays falsy). -/
def xml_lang (a : AnnNode) : Option String :=
  match a.nearLang with
  | none => none
  | some l => if l = "" then some "" else some (to_iso639 l)

/-- The memoized `@rdf:about` map: every element of the document carrying
`rdf:about`, keyed by that attribute (a dict comprehension: on duplicate
keys the later element wins). -/
def rdf_about_map (docEl : Xml) : List (String × AnnNode) :=
  (annNodes none false docEl).filterMap (fun a =>
    match a.node.attr "rdf:about" with
    | some v => some (v, a)
    | none => none)

/-- `_maybe_resolve_resource(el)`: if the element is empty (no text, no
children) and carries `rdf:resource`, substitute the element whose
`rdf:about` matches (keeping that element's own document context), else keep
the element.  The source asserts the resource is not a Lexinfo IRI; a bare
`AssertionError` stringifies to `""`. -/
def maybe_resolve_resource (aboutMap : List (String × AnnNode)) (a : AnnNode) :
    Except String AnnNode :=
  if a.node.text = "" ∧ a.node.children.isEmpty then
    match a.node.attr "rdf:resource" with
    | some resource =>
      if LEXINFO.data.isPrefixOf resource.data
      then .error ""
      else .ok ((pyDictGet aboutMap resource).getD a)
    | none => .ok a
  else .ok a

/-- Tag search by local name among annotated nodes (namespace-agnostic
`.//*[local-name() = t]`). -/
def findTagIn (nodes : List AnnNode) (t : String) : List AnnNode :=
  nodes.filter (fun a => a.node.tag = t)

/-- Proper-descendant tag search under an annotated element. -/
def findTag (a : AnnNode) (t : String) : List AnnNode :=
  findTagIn (annDesc a) t

/-- A dict update that keeps the key's insertion position (Python semantics)
— used for the dict values that the extractor later *iterates*, where the
append-only model would be observably wrong. -/
def dictSet {α : Type} (m : List (String × α)) (k : String) (x : α) :
    List (String × α) :=
  if (m.map Prod.fst).contains k
  then m.map (fun p => if p.1 = k then (k, x) else p)
  else m ++ [(k, x)]

/-- `defaultdict(list)`-style `d[k].append(v)`. -/
def ddAppend (m : List (String × List String)) (k : String) (v : String) :
    List (String × List String) :=
  match pyDictGet m k with
  | some l => dictSet m k (l ++ [v])
  | none => m ++ [(k, [v])]

/-- `rdf_id(el)`: `rdf:about` or `rdf:ID` or `xml:id`, with the import base
prefix (`elexis:dict#`) stripped; `None` when none of the attributes is
present (or truthy). -/
def rdf_id (x : Xml) : Option String :=
  let id := pyOrS (x.attr "rdf:about") (pyOrS (x.attr "rdf:ID") (x.attr "xml:id"))
  id.map (fun s => rmPrefix s (RDF_IMPORT_BASE ++ "#"))

/-- A canonical or other form: written and phonetic representations keyed by
language. -/
structure FormObj where
  writtenRep : List (String × List String)
  phoneticRep : List (String × List String)
deriving DecidableEq, Repr

/-- A sense: optional id, per-language definitions, reference IRIs. -/
structure SenseObj where
  id : Option String
  definition : List (String × String)
  reference : List String
deriving DecidableEq, Repr

/-- An extracted entry object (`entry_obj` in the source).  `lem` is the
`lemma` field (a reserved word in Lean); `typ` is `type`. -/
structure EntryObj where
  origin_id : Option String
  typ : String
  lem : Option String
  canonicalForm : FormObj
  otherForm : List FormObj
  senses : List SenseObj
  language : Option String
  partOfSpeech : String
  morphologicalPattern : List String
  etymology : List String
  usage : List String
deriving DecidableEq, Repr

/-- `remove_empty_keys` on a language→strings map: empty strings are dropped
from the lists, languages whose list becomes empty are dropped. -/
def cleanLangLists (m : List (String × List String)) : List (String × List String) :=
  (m.map (fun p => (p.1, p.2.filter (fun s => ¬ s = "")))).filter (fun p => ¬ p.2 = [])

def cleanForm (f : FormObj) : FormObj :=
  ⟨cleanLangLists f.writtenRep, cleanLangLists f.phoneticRep⟩

/-- An absent or empty optional string is dropped by `remove_empty_keys`. -/
def cleanOptStr : Option String → Option String
  | some s => if s = "" then none else some s
  | none => none

/-- `remove_empty_keys` on a sense object. -/
def clean_sense (s : SenseObj) : SenseObj :=
  ⟨cleanOptStr s.id,
   s.definition.filter (fun p => ¬ p.2 = ""),
   s.reference.filter (fun r => ¬ r = "")⟩

/-- `remove_empty_keys` on a whole entry object (`app/rdf.py` lines 215–222,
applied at line 350). -/
def clean_entry (e : EntryObj) : EntryObj :=
  { e with
    origin_id := cleanOptStr e.origin_id,
    lem := cleanOptStr e.lem,
    language := cleanOptStr e.language,
    canonicalForm := cleanForm e.canonicalForm,
    otherForm := (e.otherForm.map cleanForm).filter
      (fun f => ¬ (f.writtenRep = [] ∧ f.phoneticRep = [])),
    senses := (e.senses.map clean_sense).filter
      (fun s => ¬ (s.id = none ∧ s.definition = [] ∧ s.reference = [])),
    morphologicalPattern := e.morphologicalPattern.filter (fun s => ¬ s = ""),
    etymology := e.etymology.filter (fun s => ¬ s = ""),
    usage := e.usage.filter (fun s => ¬ s = "") }

/-- `copy_with_lemma(entry_obj, headword)` (`app/rdf.py` lines 224–231): a
deep copy with `lemma` set to the headword and the written representation for
the lexicon language replaced by the one headword. -/
def copy_with_lemma (lexLang : String) (e : EntryObj) (headword : String) : EntryObj :=
  { e with lem := some headword,
           canonicalForm := { e.canonicalForm with
             writtenRep := dictSet e.canonicalForm.writtenRep lexLang [headword] } }

/-- The final step of the entry loop (`app/rdf.py` lines 349–354): one copy
per element of the cleaned `writtenRep[lexicon_lang]` list; a missing key is
a `KeyError`, caught as a per-entry failure. -/
def explode_entry (lexLang : String) (cleaned : EntryObj) : Except String (List EntryObj) :=
  match pyDictGet cleaned.canonicalForm.writtenRep lexLang with
  | some ws => .ok (ws.map ( copy_with_lemma lexLang cleaned))
  | none => .error ("KeyError: " ++ lexLang)

/-- The representation language of a `writtenRep`/`phoneticRep`/`definition`
element: `xml_lang(el) or entry_lang or lexicon_lang`. -/
def repLang (el : AnnNode) (entryLang : Option String) (lexLang : String) : String :=
  (pyOrS (xml_lang el) (pyOrS entryLang (some lexLang))).getD lexLang

/-- Accumulate one `canonicalForm`/`otherForm` element's representations
(`app/rdf.py` lines 286–292 and 299–310). -/
def buildForm (aboutMap : List (String × AnnNode)) (entryLang : Option String)
    (lexLang : String) (fEl : AnnNode) (acc : FormObj) : Except String FormObj := do
  let wrs ← (findTag fEl "writtenRep").mapM (maybe_resolve_resource aboutMap)
  let acc := wrs.foldl (fun (m : FormObj) el =>
    { m with writtenRep :=
        ddAppend m.writtenRep (repLang el entryLang lexLang) (text_content el.node) }) acc
  let prs ← (findTag fEl "phoneticRep").mapM (maybe_resolve_resource aboutMap)
  pure (prs.foldl (fun (m : FormObj) el =>
    { m with phoneticRep :=
        ddAppend m.phoneticRep (repLang el entryLang lexLang) (text_content el.node) }) acc)

/-- The body of the per-entry `try` block (`app/rdf.py` lines 264–347),
up to but excluding `remove_empty_keys` and the explosion: language,
canonical form (with the written-representation assertion), other forms,
exactly-one part-of-speech, senses, and the flat text lists. -/
def extract_entry_body (aboutMap : List (String × AnnNode)) (lexLang : String)
    (i : Nat) (entryAnn : AnnNode) : Except String EntryObj := do
  -- Set entry language
  let entryLang ←
    if pyTruthy (xml_lang entryAnn) then pure (xml_lang entryAnn)
    else match findTag entryAnn "language" with
      | [] => pure (xml_lang entryAnn)
      | a :: _ => do
          let r ← maybe_resolve_resource aboutMap a
          pure (some (to_iso639 (text_content r.node)))
  -- Canonical form / lemma / headword
  let cfEls ← (findTag entryAnn "canonicalForm").mapM (maybe_resolve_resource aboutMap)
  let cf ← cfEls.foldlM (fun acc fEl => buildForm aboutMap entryLang lexLang fEl acc)
    (⟨[], []⟩ : FormObj)
  if cf.writtenRep = [] then
    throw ("Missing canonicalForm.writtenRep for entry #" ++ toString i)
  -- Other forms
  let ofEls ← (findTag entryAnn "otherForm").mapM (maybe_resolve_resource aboutMap)
  let otherForms ← ofEls.mapM (fun fEl =>
    buildForm aboutMap entryLang lexLang fEl (⟨[], []⟩ : FormObj))
  -- Part-of-speech: exactly one, not resource-resolved
  let posEl ← match findTag entryAnn "partOfSpeech" with
    | [p] => pure p
    | _ => throw ("Need exactly one partOfSpeech for entry #" ++ toString i)
  let posRes ← match posEl.node.attr "rdf:resource" with
    | some r => pure r
    | none => throw "KeyError: rdf:resource"
  -- Senses
  let senseAnns ← (findTag entryAnn "sense").mapM (maybe_resolve_resource aboutMap)
  let senses ← senseAnns.foldlM (fun (acc : List SenseObj) sEl => do
    let refEls ← (findTag sEl "reference").mapM (maybe_resolve_resource aboutMap)
    let refs ← refEls.mapM (fun el =>
      match el.node.attr "rdf:resource" with
      | some r => Except.ok r
      | none => Except.error "KeyError: rdf:resource")
    let defEls ← (findTag sEl "definition").mapM (maybe_resolve_resource aboutMap)
    let defs := defEls.foldl (fun (m : List (String × List String)) el =>
      ddAppend m (repLang el entryLang lexLang) (text_content el.node)) []
    -- Join sense definitions in the same language
    let sense := clean_sense ⟨rdf_id sEl.node,
      defs.map (fun p => (p.1, String.intercalate "; " p.2)), refs⟩
    pure (acc ++ if (¬ sense.definition = []) ∨ (¬ sense.reference = [])
      then [sense] else [])) []
  -- Rest
  let morphs ← (findTag entryAnn "morphologicalPattern").mapM (maybe_resolve_resource aboutMap)
  let etyms ← (findTag entryAnn "etymology").mapM (maybe_resolve_resource aboutMap)
  let usages ← (findTag entryAnn "usage").mapM (maybe_resolve_resource aboutMap)
  pure {
    origin_id := rdf_id entryAnn.node,
    typ := entryAnn.node.tag,
    lem := none,
    canonicalForm := cf,
    otherForm := otherForms,
    senses := senses,
    language := pyOrS entryLang (some lexLang),
    partOfSpeech := lexinfo_pos_to_ud (strip_ns posRes),
    morphologicalPattern := morphs.map (fun a => text_content a.node),
    etymology := etyms.map (fun a => text_content a.node),
    usage := usages.map (fun a => text_content a.node) }

/-- One full iteration of the entry loop: the body, then cleanup and the
per-headword explosion. -/
def extract_one_entry (aboutMap : List (String × AnnNode)) (lexLang : String)
    (i : Nat) (entryAnn : AnnNode) : Except String (List EntryObj) :=
  match extract_entry_body aboutMap lexLang i entryAnn with
  | .error e => .error e
  | .ok e => explode_entry lexLang (clean_entry e)

/-- `next(iter(get_lexicon(root)), root)`: the first `Lexicon`-tagged element
of the document (resolved; only the first is ever evaluated), or the tree
root when there is none — encoded as `none`. -/
def get_lexicon_el (docEl : Xml) : Except String (Option AnnNode) :=
  match findTagIn (annNodes none false docEl) "Lexicon" with
  | [] => .ok none
  | a :: _ => (maybe_resolve_resource (rdf_about_map docEl) a).map some

/-- The node set a `.//`-search scoped to the lexicon sees: the whole
document (including the document element) when the lexicon is the tree root,
else the proper descendants of the found lexicon element. -/
def lexiconScope (docEl : Xml) : Option AnnNode → List AnnNode
  | none => annNodes none false docEl
  | some a => annDesc a

/-- Membership in the Dublin-Core namespaces (`get_dublin_core`'s
namespace-uri test). -/
def is_dublin_core (a : AnnNode) : Bool :=
  a.node.ns = DC || a.node.ns = DCTERMS

/-- The lexicon metadata loop (`app/rdf.py` lines 242–248): iterate
Dublin-Core elements (resolved lazily), **stopping** at the first one inside
an entry; store `text_content(el) or el.attrib.get(rdf:resource)` under the
local tag name when truthy. -/
def metaLoop (aboutMap : List (String × AnnNode)) (acc : List (String × String)) :
    List AnnNode → Except String (List (String × String))
  | [] => .ok acc
  | a :: rest => do
    let r ← maybe_resolve_resource aboutMap a
    if r.inEntry then .ok acc
    else
      let tag := strip_ns r.node.tag
      let value := pyOrS (some (text_content r.node)) (r.node.attr "rdf:resource")
      metaLoop aboutMap
        (if pyTruthy value then dictSet acc tag (value.getD "") else acc) rest

/-- The lexicon-level `language`-element probe (`app/rdf.py` lines 252–256):
resolve elements lazily, skip those inside entries, stop at the first
non-entry one. -/
def firstNonEntryLanguage (aboutMap : List (String × AnnNode)) :
    List AnnNode → Except String (Option AnnNode)
  | [] => .ok none
  | a :: rest => do
    let r ← maybe_resolve_resource aboutMap a
    if r.inEntry then firstNonEntryLanguage aboutMap rest
    else .ok (some r)

/-- All `xml:lang` attribute values of the document, in document order
(`root.xpath(".//@xml:lang")`). -/
def allXmlLangs (docEl : Xml) : List String :=
  (annNodes none false docEl).filterMap (fun a => a.node.attr "xml:lang")

/-- The distinct values of a list, in first-occurrence order. -/
def uniqFirstGo (seen : List String) : List String → List String
  | [] => []
  | x :: rest =>
    if seen.contains x then uniqFirstGo seen rest
    else x :: uniqFirstGo (seen ++ [x]) rest

/-- `Counter(...).most_common(1)[0][0]` (`infer_lang_from_entries`): the value
with the highest count; ties break towards the first-encountered value
(`Counter` preserves first-insertion order and the sort is stable). -/
def most_common1 (l : List String) : Option String :=
  (uniqFirstGo [] l).foldl (fun best x =>
    match best with
    | none => some x
    | some b => if l.count b < l.count x then some x else best) none

/-- `xml_lang(lexicon_el)`: when no `Lexicon` element was found the lexicon
is the `ElementTree` root, whose `ancestor-or-self::*` axis matches no
element, so there is no language. -/
def lexicon_xml_lang : Option AnnNode → Option String
  | some a => xml_lang a
  | none => none

/-- Lexicon-language determination (`app/rdf.py` lines 250–260), including
the final `assert`: caller-supplied language, else `xml_lang` of the lexicon
element (the tree root has no `xml:lang`), else the first non-entry
`language` element's text, else the most common `xml:lang` value. -/
def resolveLexiconLang (docEl : Xml) (language : Option String)
    (lexEl : Option AnnNode) : Except String String :=
  let l1 := pyOrS (to_iso639Opt language) (lexicon_xml_lang lexEl)
  let l2res : Except String (Option String) :=
    if pyTruthy l1 then .ok l1
    else
      match firstNonEntryLanguage (rdf_about_map docEl)
          (findTagIn (lexiconScope docEl lexEl) "language") with
      | .error e => .error e
      | .ok (some r) => .ok (some (to_iso639 (text_content r.node)))
      | .ok none => .ok l1
  match l2res with
  | .error e => .error e
  | .ok l2 =>
    let l3 := if pyTruthy l2 then l2 else most_common1 (allXmlLangs docEl)
    if pyTruthy l3 then .ok (l3.getD "")
    else .error "Need language for the dictionary. Either via lime:language, xml:lang, or language="

/-- A whole-document extraction failure. -/
inductive ExtractErr where
  /-- An uncaught exception outside the per-entry `try` (assertion failures,
  resolution failures at lexicon level). -/
  | uncaught (msg : String)
  /-- The final `ValueError`, carrying the collected per-entry error list
  (the source joins the list into the message with newlines). -/
  | noValidEntries (errors : List String)
deriving DecidableEq, Repr

/-- The result of `_ontolex_etree_to_dict`: lexicon metadata, resolved source
language, extracted entries. -/
structure LexiconObj where
  meta : List (String × String)
  sourceLanguage : String
  entries : List EntryObj
deriving DecidableEq, Repr

/-- Everything `_ontolex_etree_to_dict` does before the entry loop: lexicon
element, Dublin-Core metadata, lexicon language, and the resolved entry
elements (`get_entry(lexicon_el)`). -/
def extraction_preamble (docEl : Xml) (language : Option String) :
    Except ExtractErr (List (String × String) × String × List AnnNode) :=
  match get_lexicon_el docEl with
  | .error e => .error (ExtractErr.uncaught e)
  | .ok lexEl =>
    match metaLoop (rdf_about_map docEl) []
        ((lexiconScope docEl lexEl).filter is_dublin_core) with
    | .error e => .error (ExtractErr.uncaught e)
    | .ok meta =>
      match resolveLexiconLang docEl language lexEl with
      | .error e => .error (ExtractErr.uncaught e)
      | .ok lexLang =>
        match ((lexiconScope docEl lexEl).filter
            (fun a => ENTRY_TAGS.contains a.node.tag)).mapM
            (maybe_resolve_resource (rdf_about_map docEl)) with
        | .error e => .error (ExtractErr.uncaught e)
        | .ok els => .ok (meta, lexLang, els)

/-- The entry loop (`app/rdf.py` lines 263–360): accumulate the exploded
copies of entries that extract, and catch each failing entry's error message,
appending it only while fewer than 50 messages are stored. -/
def extract_entries_fold (aboutMap : List (String × AnnNode)) (lexLang : String)
    (els : List AnnNode) : List EntryObj × List String :=
  els.enum.foldl (fun (acc : List EntryObj × List String) ie =>
    match extract_one_entry aboutMap lexLang ie.1 ie.2 with
    | .ok es => (acc.1 ++ es, acc.2)
    | .error e => (acc.1, if acc.2.length < 50 then acc.2 ++ [e] else acc.2))
    ([], [])

/-- `_ontolex_etree_to_dict(root, language)`: the whole XML-family
tree-to-model extraction.  Raises (the model of) `ValueError` carrying the
collected error list when no entry survives; on success records the entries
and sets `meta["sourceLanguage"]`. -/
def ontolex_etree_to_dict (docEl : Xml) (language : Option String) :
    Except ExtractErr LexiconObj :=
  match extraction_preamble docEl language with
  | .error e => .error e
  | .ok (meta, lexLang, els) =>
    let res := extract_entries_fold (rdf_about_map docEl) lexLang els
    if res.1 = [] then .error (ExtractErr.noValidEntries res.2)
    else .ok ⟨dictSet meta "sourceLanguage" lexLang, lexLang, res.1⟩

/-! ## Concrete documents used by witnesses and counterexamples -/

/-- A `writtenRep` element holding the given text. -/
def wrEl (s : String) : Xml := .elem "" "writtenRep" [] s []

/-- A `partOfSpeech` element referencing the Lexinfo common-noun IRI. -/
def posNounEl : Xml :=
  .elem "" "partOfSpeech" [("rdf:resource", LEXINFO ++ "commonNoun")] "" []

/-- A lexical entry whose canonical form lists the headword "cat" **twice**. -/
def entryCatCat : Xml :=
  .elem ONTOLEX "LexicalEntry" [("rdf:about", "elexis:dict#e1")] ""
    [.elem "" "canonicalForm" [] "" [wrEl "cat", wrEl "cat"], posNounEl]

/-- The duplicate-headword document: an English lexicon around `entryCatCat`. -/
def docCatCat : Xml :=
  .elem "" "RDF" [] "" [.elem "" "Lexicon" [("xml:lang", "en")] "" [entryCatCat]]

/-- A well-formed entry with the single headword "cat". -/
def entryGood : Xml :=
  .elem ONTOLEX "LexicalEntry" [("rdf:about", "elexis:dict#e1")] ""
    [.elem "" "canonicalForm" [] "" [wrEl "cat"], posNounEl]

/-- An entry with no `partOfSpeech` child: its extraction fails. -/
def entryBad : Xml :=
  .elem ONTOLEX "LexicalEntry" [("rdf:about", "elexis:dict#e2")] ""
    [.elem "" "canonicalForm" [] "" [wrEl "dog"]]

/-- A document with one extractable and one failing entry. -/
def docMixed : Xml :=
  .elem "" "RDF" [] ""
    [.elem "" "Lexicon" [("xml:lang", "en")] "" [entryGood, entryBad]]

/-- The annotated entry elements of `docMixed` (what `get_entry` yields). -/
def docMixedEntryEls : List AnnNode :=
  [⟨some "en", true, entryGood⟩, ⟨some "en", true, entryBad⟩]

/-- The annotated entry element of `docCatCat`. -/
def annEntryCatCat : AnnNode := ⟨some "en", true, entryCatCat⟩

/-- The entry object each exploded copy of `entryCatCat` equals. -/
def catOut : EntryObj :=
  { origin_id := some "e1",
    typ := "LexicalEntry",
    lem := some "cat",
    canonicalForm := ⟨[("en", ["cat"])], []⟩,
    otherForm := [],
    senses := [],
    language := some "en",
    partOfSpeech := "NOUN",
    morphologicalPattern := [],
    etymology := [],
    usage := [] }

/-- A lexicon declaring its language only through a `language` child element. -/
def docLangChild : Xml :=
  .elem "" "RDF" [] ""
    [.elem "" "Lexicon" [] "" [.elem "" "language" [] "fra" [], entryGood]]

/-! ## JSON ingestion (`_from_json`, `app/rdf.py` lines 83–112)

The per-entry normalization of the JSON format: part-of-speech and `@type`
namespace stripping, `senses` defaulting, promotion of string-valued
canonical-form / definition fields to language-keyed maps, and the `lemma`
default.  The surrounding file handling (single top-level key) and the final
pydantic validation of the whole structure are out of scope of the claims. -/

/-- A canonical-form representation value in the input JSON: either a bare
string or already keyed by language. -/
inductive CFVal where
  | plain (s : String)
  | keyed (m : List (String × List String))
deriving DecidableEq, Repr

/-- A sense definition value: a bare string or language-keyed. -/
inductive DefVal where
  | plain (s : String)
  | keyed (m : List (String × String))
deriving DecidableEq, Repr

/-- A sense of the JSON input (`definition` may be absent, which the source
hits as a `KeyError`). -/
structure JSenseIn where
  definition : Option DefVal
deriving DecidableEq, Repr

/-- An entry of the JSON input.  `lem` models `lemma`, `typ` models `@type`. -/
structure JEntryIn where
  partOfSpeech : String
  typ : String
  senses : Option (List JSenseIn)
  language : Option String
  canonicalForm : Option (List (String × CFVal))
  lem : Option String
deriving DecidableEq, Repr

structure JSenseOut where
  definition : List (String × String)
deriving DecidableEq, Repr

structure JEntryOut where
  partOfSpeech : String
  typ : String
  senses : List JSenseOut
  language : Option String
  canonicalForm : List (String × List (String × List String))
  lem : String
deriving DecidableEq, Repr

/-- Promotion of a string-valued sense definition to `{lang: value}`. -/
def from_json_sense (lang : String) (s : JSenseIn) : Except String JSenseOut :=
  match s.definition with
  | none => .error "KeyError: definition"
  | some (.plain d) => .ok ⟨[(lang, d)]⟩
  | some (.keyed m) => .ok ⟨m⟩

/-- The body of the entry loop of `_from_json` (`app/rdf.py` lines 88–109). -/
def from_json_entry (sourceLanguage : String) (e : JEntryIn) :
    Except String JEntryOut :=
  -- Convert POS from Lexinfo to UD; strip its JSON-LD namespace prefix
  let pos := lexinfo_pos_to_ud (String.mk (lastD (splitChar ':' e.partOfSpeech.data) []))
  -- Strip the type namespace base URI
  let typ := String.mk (lastD (splitChar '#' e.typ.data) [])
  -- Make sure senses are available
  let senses := e.senses.getD []
  -- Key canonicalForm etc. by language if not already
  let lang := e.language.getD sourceLanguage
  let canonicalForm := (e.canonicalForm.getD []).map (fun p =>
    match p.2 with
    | .plain s => (p.1, [(lang, [s])])
    | .keyed m => (p.1, m))
  match senses.mapM (from_json_sense lang) with
  | .error err => .error err
  | .ok senses2 =>
    match e.lem with
    | some l => .ok ⟨pos, typ, senses2, e.language, canonicalForm, l⟩
    | none =>
      -- entry["lemma"] = entry["canonicalForm"]["writtenRep"][lang][0]
      match e.canonicalForm with
      | none => .error "KeyError: canonicalForm"
      | some _ =>
        match pyDictGet canonicalForm "writtenRep" with
        | none => .error "KeyError: writtenRep"
        | some m =>
          match pyDictGet m lang with
          | none => .error ("KeyError: " ++ lang)
          | some [] => .error "IndexError: list index out of range"
          | some (w :: _) => .ok ⟨pos, typ, senses2, e.language, canonicalForm, w⟩

/-- `_from_json` applied to the entries of the single dictionary. -/
def from_json_entries (sourceLanguage : String) (entries : List JEntryIn) :
    Except String (List JEntryOut) :=
  entries.mapM (from_json_entry sourceLanguage)

/-- A JSON entry with its own `language` ("fr") different from the
dictionary source language ("en"), no `lemma`, and written representations
in both languages. -/
def jEntryFr : JEntryIn :=
  { partOfSpeech := "lexinfo:commonNoun",
    typ := "http://www.w3.org/ns/lemon/ontolex#Word",
    senses := none,
    language := some "fr",
    canonicalForm := some [("writtenRep", .keyed [("fr", ["chat"]), ("en", ["cat"])])],
    lem := none }

/-- A JSON entry with no `language` of its own and no `lemma`. -/
def jEntryPlain : JEntryIn :=
  { partOfSpeech := "lexinfo:commonNoun",
    typ := "http://www.w3.org/ns/lemon/ontolex#Word",
    senses := none,
    language := none,
    canonicalForm := some [("writtenRep", .keyed [("en", ["cat", "kitty"])])],
    lem := none }

/-! ## Identifier continuity on dictionary replacement
(`_transfer_ids`, `app/importing/ops.py` lines 176–199)

`_transfer_ids` keys every entry by `(lemma, partOfSpeech, n-th occurrence of
that pair)`, computed by a shared mutable `entry_counter`; it builds a key→id
dict over the old dictionary's entries, clears the counter, and then walks the
new entries assigning `entry['_id']` from the old dict when the key matches.
-/

/-- The `(lemma, partOfSpeech)` projection of a stored old entry
(the fields the db query projects) together with its stored `_id`
(modelled as a `Nat`). -/
structure OldEntry where
  lem : String
  pos : String
  mongoId : Nat
deriving DecidableEq, Repr

/-- A new entry about to be inserted: the key fields, the optional `_id`
(absent until the db assigns a fresh one on insert), and `rest` standing for
all the other fields of the entry object, which `_transfer_ids` never
touches. -/
structure NewEntry where
  lem : String
  pos : String
  mongoId : Option Nat
  rest : String
deriving DecidableEq, Repr

/-- `entry_to_key`: look up and bump the per-`(lemma, pos)` occurrence
counter (`defaultdict(int)`), and return the composite key together with the
updated counter. -/
def entry_to_key (counter : List ((String × String) × Nat)) (lem pos : String) :
    (String × String × Nat) × List ((String × String) × Nat) :=
  let key := (lem, pos)
  let n := pyDictGetD counter key 0 + 1
  ((lem, pos, n), pyDictSet counter key n)

/-- `old_id_by_key = {entry_to_key(entry): entry['_id'] for entry in old_entries}`:
a dict built (with the shared counter) in the old entries' stored order. -/
def old_id_by_key (old : List OldEntry) : List ((String × String × Nat) × Nat) :=
  (old.foldl
    (fun (acc : List ((String × String × Nat) × Nat) × List ((String × String) × Nat)) e =>
      let kst := entry_to_key acc.2 e.lem e.pos
      (acc.1 ++ [(kst.1, e.mongoId)], kst.2))
    ([], [])).1

/-- `_transfer_ids(new_obj, old_dict_id, db)`: for each new entry in order,
compute its composite key with a fresh counter and inherit the old entry's
stored id when the key is found in `old_id_by_key`. -/
def transfer_ids (old : List OldEntry) (newEntries : List NewEntry) : List NewEntry :=
  let oldMap := old_id_by_key old
  -- entry_counter.clear(): the pass over the new entries restarts the counter
  (newEntries.foldl
    (fun (acc : List NewEntry × List ((String × String) × Nat)) e =>
      let kst := entry_to_key acc.2 e.lem e.pos
      let e' := match pyDictGet oldMap kst.1 with
        | some id => { e with mongoId := some id }
        | none => e
      (acc.1 ++ [e'], kst.2))
    ([], [])).1

/-- Number of occurrences of a `(lemma, pos)` pair in a list of pairs. -/
def countPair (l : List (String × String)) (key : String × String) : Nat :=
  l.countP (fun x => decide (x = key))

/-- The composite key the spec describes: `(lemma, pos, nth occurrence of that
pair in document order)`, given the pairs of the preceding entries. -/
def occKey (pref : List (String × String)) (lem pos : String) : String × String × Nat :=
  (lem, pos, countPair pref (lem, pos) + 1)

/-- Modelled from the spec's words for comparison with `transfer_ids`:
walk the new entries in document order and give each one the old id stored
under its `(lemma, pos, nth-occurrence)` key, if any. -/
def transferSpec (oldMap : List ((String × String × Nat) × Nat))
    (pref : List (String × String)) : List NewEntry → List NewEntry
  | [] => []
  | e :: restEntries =>
    (match pyDictGet oldMap (occKey pref e.lem e.pos) with
      | some id => { e with mongoId := some id }
      | none => e)
    :: transferSpec oldMap (pref ++ [(e.lem, e.pos)]) restEntries

/-- Modelled from the spec's words for comparison with `old_id_by_key`:
the association of each old entry's `(lemma, pos, nth-occurrence)` key to its
stored id, in document order. -/
def keyedIds (pref : List (String × String)) : List OldEntry → List ((String × String × Nat) × Nat)
  | [] => []
  | e :: restEntries =>
    (occKey pref e.lem e.pos, e.mongoId) :: keyedIds (pref ++ [(e.lem, e.pos)]) restEntries

/-! ## Import metadata overlay
(`_process_one_file`, `app/importing/ops.py` lines 55–61, read back through
the `/about` merge, `app/router_rest.py` line 74)

`obj.update(job.meta.dict(exclude_none=True, exclude_unset=True))` writes the
job-supplied metadata onto the **top level** of the parsed dictionary object,
whose own file-derived metadata lives under the `"meta"` key; as the code
comment says, the `/about` view then merges `meta` over the base
(`doc.update(doc.pop("meta"))`), so on the resulting dictionary object the
file-derived value is the one read for any field the file specified.
Field values are opaque here: a top-level value is a leaf payload or the
`meta` sub-dict (a flat map of opaque payloads). -/

/-- A top-level value of the stored dictionary object. -/
inductive DVal where
  | leaf (payload : String)
  | sub (fields : List (String × String))
deriving DecidableEq, Repr

/-- Python `dict.update`: every observation goes through the last-wins
`pyDictGet`, so updating is modelled by appending the update's items. -/
def pyDictUpdate {v : Type} (d u : List (String × v)) : List (String × v) :=
  d ++ u

/-- Python `dict.pop(k)` (the removal part). -/
def pyDictPop {v : Type} (d : List (String × v)) (k : String) : List (String × v) :=
  d.filter (fun p => ¬ p.1 = k)

/-- The overlay step `obj.update(job_meta)` (`ops.py` line 59). -/
def overlay_job_meta (obj jobMeta : List (String × DVal)) : List (String × DVal) :=
  pyDictUpdate obj jobMeta

/-- The `/about` read `doc.update(doc.pop("meta"))` (`router_rest.py`
line 74); `none` models the `KeyError`/`TypeError` when `meta` is missing or
not a dict. -/
def about_view (doc : List (String × DVal)) : Option (List (String × DVal)) :=
  match pyDictGet doc "meta" with
  | some (DVal.sub m) =>
    some (pyDictUpdate (pyDictPop doc "meta") (m.map (fun p => (p.1, DVal.leaf p.2))))
  | _ => none

/-! ## Import job pipeline and the ownership check
(`_create_or_update_dict`, `app/importing/ops.py` lines 202–239;
`_process_one_file`, lines 29–76) -/

/-- A stored dictionary record. -/
structure DbDict where
  mongoId : String
  api_key : String
  import_time : String
  n_entries : Nat
  entryIds : List Nat
  payload : String
deriving DecidableEq, Repr

/-- A stored entry record (`_dict_id` is the back-reference). -/
structure DbEntryRec where
  mongoId : Nat
  dict_id : String
  lem : String
  pos : String
  rest : String
deriving DecidableEq, Repr

/-- The database state the import pipeline touches, with a fresh-id supply
for `insert_many`. -/
structure Db where
  dicts : List DbDict
  entries : List DbEntryRec
  nextEntryId : Nat
deriving DecidableEq, Repr

/-- The parsed dictionary object handed to `_create_or_update_dict`: its
entries plus the rest of the object (meta etc.), opaque here. -/
structure ImportDictObj where
  entries : List NewEntry
  payload : String
deriving DecidableEq, Repr

/-- `_create_or_update_dict(db, dict_obj, job, log, override_dict_id)`:
ownership check and id transfer when replacing, the non-empty-entries
assertion, then delete of the previous dict/entries and insert of the new
ones.  Every raise precedes the first db write, so an error leaves the db
unchanged. -/
def create_or_update_dict (db : Db) (dictObj : ImportDictObj)
    (jobId jobApiKey now : String) (overrideDictId : Option String) :
    Except String Db :=
  -- dict_obj["_id"] = job.id; api_key; _import_time = now  (carried below)
  let dict_id := overrideDictId.getD jobId
  let entriesRes : Except String (List NewEntry) :=
    match overrideDictId with
    | none => .ok dictObj.entries
    | some oid =>
      -- old_obj = db.dicts.find_one({"api_key": job.api_key, "_id": oid})
      match db.dicts.find? (fun d =>
          decide (d.api_key = jobApiKey) && decide (d.mongoId = oid)) with
      | none => .error "E403, forbidden"
      | some _ =>
        -- Transfer entry ids from the old dict
        .ok (transfer_ids
          ((db.entries.filter (fun e => decide (e.dict_id = oid))).map
            (fun e => ⟨e.lem, e.pos, e.mongoId⟩))
          dictObj.entries)
  match entriesRes with
  | .error e => .error e
  | .ok entries =>
    if entries = [] then .error "No entries in dictionary"
    else
      -- Remove previous dict/entries, then insert the new ones
      let ins := entries.foldl (fun (acc : List DbEntryRec × Nat) e =>
        match e.mongoId with
        | some id => (acc.1 ++ [⟨id, dict_id, e.lem, e.pos, e.rest⟩], acc.2)
        | none => (acc.1 ++ [⟨acc.2, dict_id, e.lem, e.pos, e.rest⟩], acc.2 + 1))
        ([], db.nextEntryId)
      .ok { dicts := db.dicts.filter (fun d => ¬ d.mongoId = dict_id) ++
              [⟨dict_id, jobApiKey, now, entries.length,
                ins.1.map (fun r => r.mongoId), dictObj.payload⟩],
            entries := db.entries.filter (fun e => ¬ e.dict_id = dict_id) ++ ins.1,
            nextEntryId := ins.2 }

/-- Import job state (`JobStatus`). -/
inductive ImpJobStatus where
  | SCHEDULED
  | ERROR
  | DONE
deriving DecidableEq, Repr

/-- The fields of a file-import job the modelled steps read. -/
structure FileImportJob where
  api_key : String
  dict_id : Option String
  id : String
deriving DecidableEq, Repr

/-- The `traceback.format_exc()` string stored on failed jobs. -/
def pyTraceback (msg : String) : String :=
  "Traceback (most recent call last):\n" ++ msg

/-- Outcome of one `_process_one_file` run: final db, job state, stored
error. -/
structure ImportJobResult where
  db : Db
  state : ImpJobStatus
  error : Option String
deriving DecidableEq, Repr

/-- `_process_one_file` after the job is loaded (its state asserted
SCHEDULED): the download and parse outcome is supplied in `parsed`; on
success the dictionary is created or replaced and the job marked DONE, on
any exception the job is marked ERROR carrying the captured traceback. -/
def process_one_file (db : Db) (job : FileImportJob)
    (parsed : Except String ImportDictObj) (now : String) : ImportJobResult :=
  match parsed with
  | .error e => ⟨db, .ERROR, some (pyTraceback e)⟩
  | .ok obj =>
    match create_or_update_dict db obj job.id job.api_key now job.dict_id with
    | .ok db2 => ⟨db2, .DONE, none⟩
    | .error e => ⟨db, .ERROR, some (pyTraceback e)⟩

/-! ## Linking orchestrator (`process_linking_job`, `app/linking/ops.py`
lines 67–169) -/

/-- Linking job state (`LinkingJobStatus`). -/
inductive LinkingJobStatus where
  | PROCESSING
  | COMPLETED
  | FAILED
deriving DecidableEq, Repr

/-- One result row (`LinkingOneResult`): the entry pair plus its sense
links, opaque here. -/
structure LinkResult where
  source_entry : String
  target_entry : String
  linking : String
deriving DecidableEq, Repr

/-- The phases of the `try` block of `process_linking_job`, in source
order.  `our_result` is assigned only after the backend returned (line 137);
`service_url` at the end of `setDefaults` (line 87); `remote_task_id` inside
`runBackend` (line 120, remote-REST path only). -/
inductive LinkPhase where
  | loadJob
  | setDefaults
  | checkDicts
  | fetchEntries
  | runBackend
  | convertResults
deriving DecidableEq, Repr

def LinkPhase.idx : LinkPhase → Nat
  | .loadJob => 0
  | .setDefaults => 1
  | .checkDicts => 2
  | .fetchEntries => 3
  | .runBackend => 4
  | .convertResults => 5

/-- One execution of the orchestrator, described by the effects of its
externally determined steps: where (if anywhere) the `try` body raises and
with what exception text; the service url assigned when `setDefaults`
completed; the remote task id as last assigned (`none` when the failure
precedes the submit, or on the executable path); whether either side is a
remote-origin mirror (`origin_source_dict_id or origin_target_dict_id`); the
backend's result rows; the rows after full conversion; the rows at the
moment a conversion failure struck (`origin_result = our_result.copy()` is a
shallow copy, so both views share the row dicts being mutated in place); and
the terminal status the polling loop last stored when the body completes
(`COMPLETED` with an empty message on the executable path). -/
structure LinkExec where
  failure : Option (LinkPhase × String)
  serviceUrl : String
  remoteTaskId : Option String
  result : List LinkResult
  convertsToOrigin : Bool
  convertedRows : List LinkResult
  partialRows : List LinkResult
  finalState : LinkingJobStatus
  finalMessage : String
deriving DecidableEq, Repr

/-- The record the `finally` block `$set`s on the job document — all six
keys are always written. -/
structure PersistedLinking where
  state : LinkingJobStatus
  message : String
  our_result : Option (List LinkResult)
  origin_result : Option (List LinkResult)
  service_url : Option String
  remote_task_id : Option String
deriving DecidableEq, Repr

/-- `process_linking_job(id)`: the persisted record as a function of the
execution.  On an exception the status becomes FAILED with the captured
traceback; `our_result`/`origin_result` hold whatever the variables held
when the exception struck — `None` unless the backend already returned. -/
def process_linking_job (ex : LinkExec) : PersistedLinking :=
  match ex.failure with
  | some (p, msg) =>
    { state := .FAILED,
      message := pyTraceback msg,
      our_result := if p = .convertResults then some ex.partialRows else none,
      origin_result :=
        if p = .convertResults ∧ ex.convertsToOrigin then some ex.partialRows
        else none,
      service_url := if 2 ≤ LinkPhase.idx p then some ex.serviceUrl else none,
      remote_task_id := ex.remoteTaskId }
  | none =>
    { state := ex.finalState,
      message := ex.finalMessage,
      our_result := some (if ex.convertsToOrigin then ex.convertedRows else ex.result),
      origin_result := if ex.convertsToOrigin then some ex.convertedRows else none,
      service_url := some ex.serviceUrl,
      remote_task_id := ex.remoteTaskId }

/-- An execution failing at the very first step. -/
def exFailEarly : LinkExec :=
  { failure := some (.loadJob, "job not found"),
    serviceUrl := "",
    remoteTaskId := none,
    result := [],
    convertsToOrigin := false,
    convertedRows := [],
    partialRows := [],
    finalState := .COMPLETED,
    finalMessage := "" }

/-! ## Task dispatcher (`Task._worker`, `app/tasks.py` lines 29–41) -/

/-- The child process's situation when `proc.join(timeout=...)` returns:
either it exited with the given code, or it was still running when the
timeout expired (`proc.exitcode` is then `None`). -/
inductive ChildOutcome where
  | exited (code : Int)
  | runningAtTimeout
deriving DecidableEq, Repr

/-- The observable effects of one `_worker` iteration after `join`. -/
structure WorkerEffects where
  killedChild : Bool
  loggedFailure : Bool
deriving DecidableEq, Repr

/-- One `_worker` loop iteration after `proc.join(timeout=self.timeout)`
(`app/tasks.py` lines 29–41): the code contains no terminate/kill call; it
only logs when `proc.exitcode != 0` — and Python's `None != 0` is true, so a
still-running child is logged as failed.  The job record lives in the job
store, which `_worker` never writes; it passes through unchanged. -/
def worker_step (outcome : ChildOutcome) (jobRecord : String) :
    WorkerEffects × String :=
  let exitcodeNonzero :=
    match outcome with
    | .exited c => decide (¬ c = 0)
    | .runningAtTimeout => true
  ({ killedChild := false, loggedFailure := exitcodeNonzero }, jobRecord)

/-- Overlay witness fixtures: a parsed file object whose `meta` specifies
`release` and `sourceLanguage`, and job metadata conflicting on `release`
and filling `genre`. -/
def fileObjW : List (String × DVal) :=
  [("meta", DVal.sub [("release", "from-file"), ("sourceLanguage", "en")]),
   ("entries", DVal.leaf "...")]

def jobMetaW : List (String × DVal) :=
  [("release", DVal.leaf "from-job"), ("genre", DVal.leaf "gen")]

/-- Forbidden-replace witness fixtures: a stored dictionary `d1` owned by
`other-key`, and a job with `my-key` targeting `d1`. -/
def dbW : Db :=
  ⟨[⟨"d1", "other-key", "t0", 1, [1], "x"⟩], [⟨1, "d1", "cat", "NOUN", "r"⟩], 2⟩

def jobW : FileImportJob := ⟨"my-key", some "d1", "j1"⟩

def objW : ImportDictObj := ⟨[⟨"cat", "NOUN", none, "r"⟩], "p"⟩

/-! # Theorems -/

theorem pyDictGet_append {κ v : Type} [DecidableEq κ] (l₁ l₂ : List (κ × v)) (k : κ) :
    pyDictGet (l₁ ++ l₂) k =
      match pyDictGet l₂ k with
      | some x => some x
      | none => pyDictGet l₁ k := by
  induction l₁ with
  | nil =>
    cases h : pyDictGet l₂ k <;> simp [pyDictGet, h]
  | cons p t ih =>
    show pyDictGet (p :: (t ++ l₂)) k = _
    simp only [pyDictGet, ih]
    cases h : pyDictGet l₂ k <;> cases h' : pyDictGet t k <;> rfl

theorem pyDictGet_eq_none_of_not_mem {κ v : Type} [DecidableEq κ]
    (l : List (κ × v)) (k : κ)
    (h : k ∉ l.map Prod.fst) : pyDictGet l k = none := by
  induction l with
  | nil => rfl
  | cons p t ih =>
    simp only [List.map_cons, List.mem_cons, not_or] at h
    have hk : ¬(p.1 = k) := fun hc => h.1 hc.symm
    simp only [pyDictGet, ih h.2, hk, if_false]

theorem pyDictGet_set_same {κ v : Type} [DecidableEq κ] (l : List (κ × v)) (k : κ) (x : v) :
    pyDictGet (pyDictSet l k x) k = some x := by
  simp only [pyDictSet, pyDictGet_append]
  simp [pyDictGet]

theorem pyDictGet_set_other {κ v : Type} [DecidableEq κ] (l : List (κ × v)) (k k' : κ)
    (x : v) (h : k' ≠ k) : pyDictGet (pyDictSet l k x) k' = pyDictGet l k' := by
  simp only [pyDictSet, pyDictGet_append]
  have : pyDictGet [(k, x)] k' = none := by
    simp [pyDictGet, (Ne.symm h : ¬k = k')]
  rw [this]

/-- With duplicate-free keys, the last-wins lookup finds a binding iff the
binding is in the list. -/
theorem pyDictGet_eq_some_iff_mem {κ v : Type} [DecidableEq κ]
    (l : List (κ × v)) (hnd : (l.map Prod.fst).Nodup) (k : κ) (x : v) :
    pyDictGet l k = some x ↔ (k, x) ∈ l := by
  induction l generalizing x with
  | nil => simp [pyDictGet]
  | cons p t ih =>
    obtain ⟨p1, p2⟩ := p
    simp only [List.map_cons, List.nodup_cons] at hnd
    rcases hgt : pyDictGet t k with _ | y
    · simp only [pyDictGet, hgt, List.mem_cons]
      constructor
      · intro hp
        by_cases hpk : p1 = k
        · simp only [hpk, if_true] at hp
          left
          rw [hpk, Option.some_inj.mp hp]
        · simp [hpk] at hp
      · rintro (hp | hm)
        · rw [Prod.mk.injEq] at hp
          simp [hp.1, hp.2]
        · exact absurd ((ih hnd.2 x).mpr hm) (by simp [hgt])
    · simp only [pyDictGet, hgt, List.mem_cons]
      constructor
      · intro hp
        exact Or.inr ((ih hnd.2 x).mp (hgt.trans hp))
      · rintro (hp | hm)
        · exfalso
          have hkt : k ∈ t.map Prod.fst :=
            List.mem_map.mpr ⟨(k, y), (ih hnd.2 y).mp hgt, rfl⟩
          rw [Prod.mk.injEq] at hp
          exact hnd.1 (hp.1 ▸ hkt)
        · rw [← ((ih hnd.2 x).mpr hm), hgt]

/-- **C10.** The part-of-speech taxonomy mappings are mutually inverse on their
tables: for every Lexinfo POS name in the mapping,
`ud_to_lexinfo_pos (lexinfo_pos_to_ud p) = p`; for every UniversalDependencies
tag in the mapping, `lexinfo_pos_to_ud (ud_to_lexinfo_pos u) = u`; and every
value outside both tables passes through both functions unchanged, so a POS
value round-trips unchanged through ingestion and export. -/
theorem pos_maps_mutually_inverse :
    (∀ p ∈ LEXINFO2UD.map Prod.fst, ud_to_lexinfo_pos (lexinfo_pos_to_ud p) = p) ∧
    (∀ u ∈ UD2LEXINFO.map Prod.fst, lexinfo_pos_to_ud (ud_to_lexinfo_pos u) = u) ∧
    (∀ v, v ∉ UD2LEXINFO.map Prod.fst → v ∉ LEXINFO2UD.map Prod.fst →
      lexinfo_pos_to_ud v = v ∧ ud_to_lexinfo_pos v = v) := by
  refine ⟨by decide, by decide, fun v hu hl => ?_⟩
  constructor
  · simp only [lexinfo_pos_to_ud, pyDictGetD, pyDictGet_eq_none_of_not_mem _ _ hl,
      Option.getD_none]
  · simp only [ud_to_lexinfo_pos, pyDictGetD, pyDictGet_eq_none_of_not_mem _ _ hu,
      Option.getD_none]

/-- Witness for C10 at concrete inputs: a table entry in each direction and a
value outside both tables. -/
theorem pos_maps_mutually_inverse_witness :
    ud_to_lexinfo_pos (lexinfo_pos_to_ud "adjective") = "adjective" ∧
    lexinfo_pos_to_ud (ud_to_lexinfo_pos "NOUN") = "NOUN" ∧
    (lexinfo_pos_to_ud "foo" = "foo" ∧ ud_to_lexinfo_pos "foo" = "foo") :=
  ⟨pos_maps_mutually_inverse.1 "adjective" (by decide),
   pos_maps_mutually_inverse.2.1 "NOUN" (by decide),
   pos_maps_mutually_inverse.2.2 "foo" (by decide) (by decide)⟩

theorem countPair_append (l₁ l₂ : List (String × String)) (k : String × String) :
    countPair (l₁ ++ l₂) k = countPair l₁ k + countPair l₂ k :=
  List.countP_append _ _ _

/-- A counter satisfying the "counts of the prefix" invariant returns the
occurrence key and preserves the invariant for the extended prefix. -/
theorem entry_to_key_spec (counter : List ((String × String) × Nat))
    (pref : List (String × String))
    (hinv : ∀ k, pyDictGetD counter k 0 = countPair pref k) (lem pos : String) :
    (entry_to_key counter lem pos).1 = occKey pref lem pos ∧
    (∀ k, pyDictGetD (entry_to_key counter lem pos).2 k 0 =
      countPair (pref ++ [(lem, pos)]) k) := by
  constructor
  · simp only [entry_to_key, occKey, hinv]
  · intro k
    simp only [entry_to_key]
    by_cases hk : k = (lem, pos)
    · subst hk
      simp only [pyDictGetD, pyDictGet_set_same, Option.getD_some, countPair_append]
      have h1 : countPair [(lem, pos)] (lem, pos) = 1 := by
        simp [countPair]
      rw [h1]
      have h2 := hinv (lem, pos)
      simp only [pyDictGetD] at h2
      rw [h2]
    · simp only [pyDictGetD, pyDictGet_set_other _ _ _ _ hk, countPair_append]
      have hk2 : ¬((lem, pos) = k) := fun hsym => hk hsym.symm
      have hz : countPair [(lem, pos)] k = 0 := by
        simp only [countPair, List.countP_cons, List.countP_nil]
        simp [hk2]
      rw [hz, Nat.add_zero]
      exact hinv k

/-- The old-side fold of `_transfer_ids` produces exactly the document-order
keyed-ids association. -/
theorem old_id_by_key_eq_keyedIds (old : List OldEntry) :
    old_id_by_key old = keyedIds [] old := by
  suffices h : ∀ (l : List OldEntry) (pref : List (String × String))
      (acc : List ((String × String × Nat) × Nat))
      (counter : List ((String × String) × Nat)),
      (∀ k, pyDictGetD counter k 0 = countPair pref k) →
      (l.foldl
        (fun (acc : List ((String × String × Nat) × Nat) × List ((String × String) × Nat)) e =>
          let kst := entry_to_key acc.2 e.lem e.pos
          (acc.1 ++ [(kst.1, e.mongoId)], kst.2))
        (acc, counter)).1 = acc ++ keyedIds pref l by
    have h0 : ∀ k, pyDictGetD ([] : List ((String × String) × Nat)) k 0 =
        countPair [] k := by
      intro k; simp [pyDictGetD, pyDictGet, countPair]
    simpa using h old [] [] [] h0
  intro l
  induction l with
  | nil => intro pref acc counter _; simp [keyedIds]
  | cons e t ih =>
    intro pref acc counter hinv
    obtain ⟨hkey, hinv'⟩ := entry_to_key_spec counter pref hinv e.lem e.pos
    simp only [List.foldl_cons, keyedIds]
    rw [ih (pref ++ [(e.lem, e.pos)]) _ _ hinv', hkey]
    simp

/-- The new-side fold of `_transfer_ids` equals the spec-level document-order
walk `transferSpec`. -/
theorem transfer_ids_eq_transferSpec (old : List OldEntry) (newEntries : List NewEntry) :
    transfer_ids old newEntries = transferSpec (old_id_by_key old) [] newEntries := by
  suffices h : ∀ (l : List NewEntry) (pref : List (String × String))
      (acc : List NewEntry) (counter : List ((String × String) × Nat)),
      (∀ k, pyDictGetD counter k 0 = countPair pref k) →
      (l.foldl
        (fun (acc : List NewEntry × List ((String × String) × Nat)) e =>
          let kst := entry_to_key acc.2 e.lem e.pos
          let e' := match pyDictGet (old_id_by_key old) kst.1 with
            | some id => { e with mongoId := some id }
            | none => e
          (acc.1 ++ [e'], kst.2))
        (acc, counter)).1 = acc ++ transferSpec (old_id_by_key old) pref l by
    have h0 : ∀ k, pyDictGetD ([] : List ((String × String) × Nat)) k 0 =
        countPair [] k := by
      intro k; simp [pyDictGetD, pyDictGet, countPair]
    simpa [transfer_ids] using h newEntries [] [] [] h0
  intro l
  induction l with
  | nil => intro pref acc counter _; simp [transferSpec]
  | cons e t ih =>
    intro pref acc counter hinv
    obtain ⟨hkey, hinv'⟩ := entry_to_key_spec counter pref hinv e.lem e.pos
    simp only [List.foldl_cons, transferSpec]
    rw [ih (pref ++ [(e.lem, e.pos)]) _ _ hinv']
    rw [hkey]
    simp

/-- Every key produced further down the old list has an occurrence count
strictly above the count its pair already has in the prefix. -/
theorem keyedIds_count_lb (l : List OldEntry) (pref : List (String × String)) :
    ∀ k ∈ (keyedIds pref l).map Prod.fst,
      countPair pref (k.1, k.2.1) + 1 ≤ k.2.2 := by
  induction l generalizing pref with
  | nil => intro k hk; simp [keyedIds] at hk
  | cons e t ih =>
    intro k hk
    simp only [keyedIds, List.map_cons, List.mem_cons] at hk
    rcases hk with rfl | hk
    · simp [occKey]
    · have := ih (pref ++ [(e.lem, e.pos)]) k hk
      have hmono : countPair pref (k.1, k.2.1) ≤
          countPair (pref ++ [(e.lem, e.pos)]) (k.1, k.2.1) := by
        rw [countPair_append]; omega
      omega

/-- The document-order composite keys of the old entries are pairwise
distinct: the occurrence index separates entries sharing `(lemma, pos)`. -/
theorem keyedIds_keys_nodup (l : List OldEntry) (pref : List (String × String)) :
    ((keyedIds pref l).map Prod.fst).Nodup := by
  induction l generalizing pref with
  | nil => simp [keyedIds]
  | cons e t ih =>
    simp only [keyedIds, List.map_cons, List.nodup_cons]
    refine ⟨fun hmem => ?_, ih _⟩
    have hlb := keyedIds_count_lb t (pref ++ [(e.lem, e.pos)]) _ hmem
    simp only [occKey] at hlb
    rw [countPair_append] at hlb
    have : countPair [(e.lem, e.pos)] (e.lem, e.pos) = 1 := by
      simp [countPair]
    omega

/-- **C7.** Identifier continuity on dictionary replacement: every new entry
is keyed by `(lemma, part-of-speech, nth-occurrence-of-that-pair)` in document
order; when the same key appears among the old dictionary's entries (keyed the
same way, in their stored order) the new entry inherits the old entry's stored
id, and entries whose key has no match are left without an id (the db then
assigns a fresh one on insert).  Stated as: the imperative counter-based
`_transfer_ids` equals the document-order specification `transferSpec`, the old
key→id dict is the document-order keyed view of the old entries, and its
lookup succeeds exactly on the keys of old entries (with their stored id). -/
theorem transfer_ids_identifier_continuity (old : List OldEntry)
    (newEntries : List NewEntry) :
    transfer_ids old newEntries = transferSpec (old_id_by_key old) [] newEntries ∧
    old_id_by_key old = keyedIds [] old ∧
    (∀ k id, pyDictGet (old_id_by_key old) k = some id ↔ (k, id) ∈ keyedIds [] old) := by
  refine ⟨transfer_ids_eq_transferSpec old newEntries,
    old_id_by_key_eq_keyedIds old, fun k id => ?_⟩
  rw [old_id_by_key_eq_keyedIds old]
  exact pyDictGet_eq_some_iff_mem _ (keyedIds_keys_nodup old []) k id

/-- Witness for C7 at a concrete replacement: old dictionary with two `cat/NOUN`
entries (ids 7 and 8) and new entries `cat/NOUN`, `cat/NOUN`, `dog/NOUN`: the
two `cat` occurrences inherit ids 7 and 8, the unmatched `dog` keeps no id. -/
theorem transfer_ids_identifier_continuity_witness :
    transfer_ids
      [⟨"cat", "NOUN", 7⟩, ⟨"cat", "NOUN", 8⟩]
      [⟨"cat", "NOUN", none, "a"⟩, ⟨"cat", "NOUN", none, "b"⟩, ⟨"dog", "NOUN", none, "c"⟩] =
      [⟨"cat", "NOUN", some 7, "a"⟩, ⟨"cat", "NOUN", some 8, "b"⟩, ⟨"dog", "NOUN", none, "c"⟩] := by
  have h := (transfer_ids_identifier_continuity
    [⟨"cat", "NOUN", 7⟩, ⟨"cat", "NOUN", 8⟩]
    [⟨"cat", "NOUN", none, "a"⟩, ⟨"cat", "NOUN", none, "b"⟩, ⟨"dog", "NOUN", none, "c"⟩]).1
  rw [h]
  rfl

/-- Characterization of the entry loop: from any accumulator with at most 50
stored errors, the fold appends every successful entry's exploded copies in
order, and appends the failing entries' messages until the cap of 50 is
reached. -/
theorem extract_entries_fold_go (aboutMap : List (String × AnnNode)) (lexLang : String)
    (l : List (Nat × AnnNode)) (accE : List EntryObj) (accErr : List String)
    (h : accErr.length ≤ 50) :
    l.foldl (fun (acc : List EntryObj × List String) ie =>
      match extract_one_entry aboutMap lexLang ie.1 ie.2 with
      | .ok es => (acc.1 ++ es, acc.2)
      | .error e => (acc.1, if acc.2.length < 50 then acc.2 ++ [e] else acc.2))
      (accE, accErr) =
    (accE ++ (l.filterMap
        (fun ie => (extract_one_entry aboutMap lexLang ie.1 ie.2).toOption)).flatten,
     accErr ++ (l.filterMap (fun ie =>
        match extract_one_entry aboutMap lexLang ie.1 ie.2 with
        | .error e => some e
        | .ok _ => none)).take (50 - accErr.length)) := by
  induction l generalizing accE accErr with
  | nil => simp
  | cons ie t ih =>
    simp only [List.foldl_cons, List.filterMap_cons]
    cases hr : extract_one_entry aboutMap lexLang ie.1 ie.2 with
    | ok es =>
      rw [ih (accE ++ es) accErr h]
      simp [Except.toOption, List.append_assoc]
    | error e =>
      by_cases hlt : accErr.length < 50
      · simp only [hlt, if_true]
        rw [ih accE (accErr ++ [e]) (by simp; omega)]
        simp only [Except.toOption, List.length_append, List.length_cons,
          List.length_nil]
        have hn : 50 - accErr.length = (50 - (accErr.length + 1)) + 1 := by omega
        rw [hn]
        simp [List.take_succ_cons, List.append_assoc]
      · simp only [hlt, if_false]
        have h50 : accErr.length = 50 := by omega
        rw [ih accE accErr h]
        simp [Except.toOption, h50]

/-- **C1.** During XML-family tree-to-model extraction, whenever the pre-entry
phase succeeds, a failure while extracting any single entry is caught and
recorded as a diagnostic string in an error list that never exceeds 50
messages, and does not abort extraction of the remaining entries — the output
is exactly the in-order concatenation of every *successful* entry's exploded
copies, independent of the failures around it; and if zero entries survive,
the whole ingestion fails by raising an error that carries the collected
per-entry error list. -/
theorem xml_extraction_error_containment (docEl : Xml) (language : Option String)
    (meta : List (String × String)) (lexLang : String) (els : List AnnNode)
    (hpre : extraction_preamble docEl language = .ok (meta, lexLang, els)) :
    ((els.enum.filterMap (fun ie =>
        match extract_one_entry (rdf_about_map docEl) lexLang ie.1 ie.2 with
        | .error e => some e
        | .ok _ => none)).take 50).length ≤ 50 ∧
    ontolex_etree_to_dict docEl language =
      (if (els.enum.filterMap (fun ie =>
            (extract_one_entry (rdf_about_map docEl) lexLang ie.1 ie.2).toOption)).flatten
          = ([] : List EntryObj) then
        .error (ExtractErr.noValidEntries ((els.enum.filterMap (fun ie =>
          match extract_one_entry (rdf_about_map docEl) lexLang ie.1 ie.2 with
          | .error e => some e
          | .ok _ => none)).take 50))
      else .ok ⟨dictSet meta "sourceLanguage" lexLang, lexLang,
        (els.enum.filterMap (fun ie =>
          (extract_one_entry (rdf_about_map docEl) lexLang ie.1 ie.2).toOption)).flatten⟩) := by
  constructor
  · exact le_trans (List.length_take_le 50 _) (le_refl 50)
  · have hg := extract_entries_fold_go (rdf_about_map docEl) lexLang els.enum [] []
      (by simp)
    simp only [List.nil_append, List.length_nil, Nat.sub_zero] at hg
    unfold ontolex_etree_to_dict
    rw [hpre]
    show (let res := extract_entries_fold (rdf_about_map docEl) lexLang els
      if res.1 = [] then Except.error (ExtractErr.noValidEntries res.2)
      else Except.ok
        (LexiconObj.mk (dictSet meta "sourceLanguage" lexLang) lexLang res.1)) = _
    unfold extract_entries_fold
    rw [hg]

set_option maxRecDepth 100000 in
/-- Witness for C1 at `docMixed`: the second entry fails (no part-of-speech)
but the first entry's copy is still extracted, so the document yields exactly
one entry. -/
theorem xml_extraction_error_containment_witness :
    (ontolex_etree_to_dict docMixed none).map (fun o => o.entries.length) = .ok 1 := by
  have h := xml_extraction_error_containment docMixed none [] "en" docMixedEntryEls
    (by decide)
  rw [h.2]
  decide

/-- **C2 (amended).** For every entry that survives extraction, the emitted
output is one deep copy per *element* (occurrence, duplicates included) of
the cleaned written-representation list for the lexicon language — not one
per distinct headword — each copy identical to the cleaned entry except that
its lemma and its written representation for the lexicon language are set to
that single headword. -/
theorem entry_explosion_per_occurrence (aboutMap : List (String × AnnNode))
    (lexLang : String) (i : Nat) (a : AnnNode) (outs : List EntryObj)
    (h : extract_one_entry aboutMap lexLang i a = .ok outs) :
    ∃ body ws, extract_entry_body aboutMap lexLang i a = .ok body ∧
      pyDictGet (clean_entry body).canonicalForm.writtenRep lexLang = some ws ∧
      outs = ws.map ( copy_with_lemma lexLang (clean_entry body)) ∧
      ∀ w, copy_with_lemma lexLang (clean_entry body) w =
        { clean_entry body with
          lem := some w,
          canonicalForm := { (clean_entry body).canonicalForm with
            writtenRep :=
              dictSet (clean_entry body).canonicalForm.writtenRep lexLang [w] } } := by
  unfold extract_one_entry at h
  cases hb : extract_entry_body aboutMap lexLang i a with
  | error e =>
    rw [hb] at h
    simp at h
  | ok body =>
    rw [hb] at h
    change explode_entry lexLang (clean_entry body) = .ok outs at h
    unfold explode_entry at h
    cases hw : pyDictGet (clean_entry body).canonicalForm.writtenRep lexLang with
    | none =>
      rw [hw] at h
      simp at h
    | some ws =>
      rw [hw] at h
      change Except.ok (ws.map ( copy_with_lemma lexLang (clean_entry body)))
        = .ok outs at h
      injection h with h1
      exact ⟨body, ws, rfl, hw, h1.symm, fun w => rfl⟩

set_option maxRecDepth 100000 in
/-- Counterexample to C2 as stated: in `docCatCat` the single entry lists the
headword "cat" twice, so it has one *distinct* headword, yet the extractor
emits **two** identical entries (one per occurrence), not one per distinct
headword. -/
theorem entry_explosion_duplicate_headwords :
    (ontolex_etree_to_dict docCatCat none).map (fun o => o.entries.length) = .ok 2 ∧
    (ontolex_etree_to_dict docCatCat none).map
      (fun o => ((o.entries.filterMap (fun e => e.lem)).eraseDups).length) = .ok 1 := by
  constructor
  · decide
  · decide

set_option maxRecDepth 100000 in
/-- Witness for the amended C2 at `docCatCat`: the surviving entry's two
"cat" occurrences yield the two identical copies `[catOut, catOut]`. -/
theorem entry_explosion_per_occurrence_witness :
    ∃ body ws,
      extract_entry_body (rdf_about_map docCatCat) "en" 0 annEntryCatCat = .ok body ∧
      pyDictGet (clean_entry body).canonicalForm.writtenRep "en" = some ws ∧
      [catOut, catOut] = ws.map ( copy_with_lemma "en" (clean_entry body)) ∧
      ∀ w, copy_with_lemma "en" (clean_entry body) w =
        { clean_entry body with
          lem := some w,
          canonicalForm := { (clean_entry body).canonicalForm with
            writtenRep :=
              dictSet (clean_entry body).canonicalForm.writtenRep "en" [w] } } :=
  entry_explosion_per_occurrence (rdf_about_map docCatCat) "en" 0 annEntryCatCat
    [catOut, catOut] (by decide)

/-- **C6.** The extractor determines the lexicon language by this strict
precedence: (1) an explicit caller-supplied language; else (2) the nearest
enclosing `xml:lang` attribute of the lexicon element; else (3) the text of
the first `language` element that is not itself inside an entry (when that
text normalizes to something non-empty); else (4) the most frequent
`xml:lang` value in the document; and (5) if all four sources are absent the
resolution raises, which (6) fails ingestion of the whole file. -/
theorem lexicon_language_precedence (docEl : Xml) (language : Option String)
    (lexEl : Option AnnNode) :
    (∀ s, to_iso639Opt language = some s → ¬ s = "" →
      resolveLexiconLang docEl language lexEl = .ok s) ∧
    (∀ s, pyTruthy (to_iso639Opt language) = false →
      lexicon_xml_lang lexEl = some s → ¬ s = "" →
      resolveLexiconLang docEl language lexEl = .ok s) ∧
    (∀ r, pyTruthy (pyOrS (to_iso639Opt language) (lexicon_xml_lang lexEl)) = false →
      firstNonEntryLanguage (rdf_about_map docEl)
        (findTagIn (lexiconScope docEl lexEl) "language") = .ok (some r) →
      ¬ to_iso639 (text_content r.node) = "" →
      resolveLexiconLang docEl language lexEl = .ok (to_iso639 (text_content r.node))) ∧
    (∀ s, pyTruthy (pyOrS (to_iso639Opt language) (lexicon_xml_lang lexEl)) = false →
      (firstNonEntryLanguage (rdf_about_map docEl)
          (findTagIn (lexiconScope docEl lexEl) "language") = .ok none ∨
        (∃ r, firstNonEntryLanguage (rdf_about_map docEl)
            (findTagIn (lexiconScope docEl lexEl) "language") = .ok (some r) ∧
          to_iso639 (text_content r.node) = "")) →
      most_common1 (allXmlLangs docEl) = some s → ¬ s = "" →
      resolveLexiconLang docEl language lexEl = .ok s) ∧
    (pyTruthy (pyOrS (to_iso639Opt language) (lexicon_xml_lang lexEl)) = false →
      (firstNonEntryLanguage (rdf_about_map docEl)
          (findTagIn (lexiconScope docEl lexEl) "language") = .ok none ∨
        (∃ r, firstNonEntryLanguage (rdf_about_map docEl)
            (findTagIn (lexiconScope docEl lexEl) "language") = .ok (some r) ∧
          to_iso639 (text_content r.node) = "")) →
      (∀ s, most_common1 (allXmlLangs docEl) = some s → s = "") →
      resolveLexiconLang docEl language lexEl =
        .error "Need language for the dictionary. Either via lime:language, xml:lang, or language=") ∧
    (∀ meta err, get_lexicon_el docEl = .ok lexEl →
      metaLoop (rdf_about_map docEl) []
        ((lexiconScope docEl lexEl).filter is_dublin_core) = .ok meta →
      resolveLexiconLang docEl language lexEl = .error err →
      ontolex_etree_to_dict docEl language = .error (ExtractErr.uncaught err)) := by
  refine ⟨?_, ?_, ?_, ?_, ?_, ?_⟩
  · intro s h1 h2
    unfold resolveLexiconLang
    have ht : pyTruthy (to_iso639Opt language) = true := by
      simp [pyTruthy, h1, h2]
    simp [pyOrS, ht, h1, pyTruthy, h2]
  · intro s h0 h1 h2
    unfold resolveLexiconLang
    simp only [pyOrS, h0, if_false, h1]
    have ht : pyTruthy (some s) = true := by simp [pyTruthy, h2]
    simp [ht]
  · intro r h0 h1 h2
    unfold resolveLexiconLang
    simp only [h0, if_false, h1]
    have ht : pyTruthy (some (to_iso639 (text_content r.node))) = true := by
      simp [pyTruthy, h2]
    simp [ht]
  · intro s h0 h1 h2 h3
    unfold resolveLexiconLang
    simp only [h0, if_false]
    have hs : pyTruthy (some s) = true := by simp [pyTruthy, h3]
    rcases h1 with h1 | ⟨r, h1, hr⟩
    · simp only [h1]
      have h0f : pyTruthy (pyOrS (to_iso639Opt language) (lexicon_xml_lang lexEl))
          = false := h0
      simp [h0f, h2, hs]
    · simp only [h1, hr]
      have he : pyTruthy (some "") = false := by simp [pyTruthy]
      simp [he, h2, hs]
  · intro h0 h1 h2
    unfold resolveLexiconLang
    simp only [h0, if_false]
    have hmc : pyTruthy (most_common1 (allXmlLangs docEl)) = false := by
      cases hm : most_common1 (allXmlLangs docEl) with
      | none => simp [pyTruthy]
      | some s => simp [pyTruthy, h2 s hm]
    rcases h1 with h1 | ⟨r, h1, hr⟩
    · simp [h1, h0, hmc]
    · have he : pyTruthy (some "") = false := by simp [pyTruthy]
      simp [h1, hr, he, hmc]
  · intro meta err hlex hmeta herr
    unfold ontolex_etree_to_dict extraction_preamble
    simp only [hlex, hmeta, herr]

set_option maxRecDepth 100000 in
/-- Witness for C6: at `docLangChild` (whose lexicon has no `xml:lang` and a
`language` child saying "fra"), with no caller language the third source wins
and normalizes to "fr"; with a caller-supplied "eng" the first source wins
with "en". -/
theorem lexicon_language_precedence_witness :
    resolveLexiconLang docLangChild none
      (some ⟨none, false, (docLangChild.children.headD docLangChild)⟩) = .ok "fr" ∧
    resolveLexiconLang docLangChild (some "eng")
      (some ⟨none, false, (docLangChild.children.headD docLangChild)⟩) = .ok "en" := by
  constructor
  · exact (lexicon_language_precedence docLangChild none
      (some ⟨none, false, (docLangChild.children.headD docLangChild)⟩)).2.2.1
      ⟨none, false, .elem "" "language" [] "fra" []⟩ (by decide) (by decide) (by decide)
  · exact (lexicon_language_precedence docLangChild (some "eng")
      (some ⟨none, false, (docLangChild.children.headD docLangChild)⟩)).1
      "en" (by decide) (by decide)

/-- **C9 (amended).** During JSON ingestion, for every entry that lacks a
lemma field and normalizes successfully, the lemma is set to the first
written representation of the entry's canonical form **in the entry's own
language when one is specified, else** the dictionary's source language. -/
theorem json_lemma_default (src : String) (e : JEntryIn) (out : JEntryOut)
    (hl : e.lem = none) (hok : from_json_entry src e = .ok out) :
    ∃ m w ws, pyDictGet out.canonicalForm "writtenRep" = some m ∧
      pyDictGet m (e.language.getD src) = some (w :: ws) ∧
      out.lem = w := by
  unfold from_json_entry at hok
  rw [hl] at hok
  dsimp only at hok
  split at hok
  · exact Except.noConfusion hok
  · split at hok
    · exact Except.noConfusion hok
    · split at hok
      · exact Except.noConfusion hok
      · split at hok
        · exact Except.noConfusion hok
        · exact Except.noConfusion hok
        · rename_i m hm x0 w ws hw
          injection hok with hout
          subst hout
          exact ⟨m, w, ws, hm, hw, rfl⟩

/-- Witness for the amended C9: `jEntryPlain` has no language of its own, so
the lemma defaults to the first written representation in the source
language "en", namely "cat". -/
theorem json_lemma_default_witness :
    ∃ m w ws,
      pyDictGet
        ([("writtenRep", [("en", ["cat", "kitty"])])] :
          List (String × List (String × List String))) "writtenRep" = some m ∧
      pyDictGet m (jEntryPlain.language.getD "en") = some (w :: ws) ∧
      ("cat" : String) = w := by
  have h := json_lemma_default "en" jEntryPlain
    ⟨"NOUN", "Word", [], none, [("writtenRep", [("en", ["cat", "kitty"])])], "cat"⟩
    (by decide) (by decide)
  exact h

/-- Counterexample to C9 as stated: `jEntryFr` declares its own language
"fr"; the source sets its lemma from the *entry's* language ("chat"), not
from the first written representation in the dictionary's source language
"en" (which is "cat"). -/
theorem json_lemma_not_source_language :
    (from_json_entry "en" jEntryFr).map (fun o => o.lem) = .ok "chat" ∧
    ¬ (("chat" : String) = "cat") ∧
    pyDictGet [("fr", ["chat"]), ("en", ["cat"])] "en" = some ["cat"] := by
  refine ⟨by decide, by decide, by decide⟩

/-- Looking a key up in a value-mapped dict maps the found value. -/
theorem pyDictGet_map_value {v w : Type} (f : v → w) (l : List (String × v))
    (k : String) :
    pyDictGet (l.map (fun p => (p.1, f p.2))) k = (pyDictGet l k).map f := by
  induction l with
  | nil => rfl
  | cons p t ih =>
    simp only [List.map_cons, pyDictGet, ih]
    cases pyDictGet t k with
    | some x => rfl
    | none =>
      by_cases hp : p.1 = k <;> simp [hp]

/-- Looking up after `pop`: the popped key is gone, the others unchanged. -/
theorem pyDictGet_pop {v : Type} (l : List (String × v)) (k0 k : String) :
    pyDictGet (pyDictPop l k0) k = if k = k0 then none else pyDictGet l k := by
  induction l with
  | nil =>
    simp only [pyDictPop, List.filter_nil, pyDictGet]
    split <;> rfl
  | cons p t ih =>
    by_cases hp : p.1 = k0
    · have hpop : pyDictPop (p :: t) k0 = pyDictPop t k0 := by
        simp [pyDictPop, List.filter_cons, hp]
      rw [hpop, ih]
      by_cases hk : k = k0
      · simp [hk]
      · simp only [hk, if_false]
        have hpk : ¬ (p.1 = k) := by
          rw [hp]; exact fun h => hk h.symm
        simp only [pyDictGet, hpk, if_false]
        cases pyDictGet t k <;> rfl
    · have hpop : pyDictPop (p :: t) k0 = p :: pyDictPop t k0 := by
        simp [pyDictPop, List.filter_cons, hp]
      rw [hpop]
      simp only [pyDictGet, ih]
      by_cases hk : k = k0
      · have hpk : ¬ (p.1 = k) := by
          rw [hk]; exact hp
        simp [hk, hpk, hp]
      · simp [hk]

/-- **C3.** In the import pipeline's metadata overlay, for every dictionary
field the parsed file itself specified (a key of its `meta`), the
file-derived value is the one present on the resulting dictionary object as
read back through the `/about` merge, even when job-supplied metadata
conflicts with it; job-supplied metadata only fills fields the file left
unset. -/
theorem import_overlay_file_wins (fileObj jobMeta : List (String × DVal))
    (m : List (String × String))
    (hmeta : pyDictGet fileObj "meta" = some (DVal.sub m))
    (hjob : ¬ "meta" ∈ jobMeta.map Prod.fst) :
    about_view (overlay_job_meta fileObj jobMeta) =
      some (pyDictUpdate (pyDictPop (pyDictUpdate fileObj jobMeta) "meta")
        (m.map (fun p => (p.1, DVal.leaf p.2)))) ∧
    (∀ k v, pyDictGet m k = some v →
      pyDictGet (pyDictUpdate (pyDictPop (pyDictUpdate fileObj jobMeta) "meta")
        (m.map (fun p => (p.1, DVal.leaf p.2)))) k = some (DVal.leaf v)) ∧
    (∀ k v, pyDictGet m k = none → ¬ k = "meta" → pyDictGet jobMeta k = some v →
      pyDictGet (pyDictUpdate (pyDictPop (pyDictUpdate fileObj jobMeta) "meta")
        (m.map (fun p => (p.1, DVal.leaf p.2)))) k = some v) := by
  have hjm : pyDictGet jobMeta "meta" = none :=
    pyDictGet_eq_none_of_not_mem jobMeta "meta" hjob
  refine ⟨?_, ?_, ?_⟩
  · unfold about_view overlay_job_meta
    rw [show pyDictGet (pyDictUpdate fileObj jobMeta) "meta"
        = some (DVal.sub m) from by
      unfold pyDictUpdate
      rw [pyDictGet_append, hjm, hmeta]]
  · intro k v hk
    unfold pyDictUpdate
    rw [pyDictGet_append, pyDictGet_map_value, hk]
    rfl
  · intro k v hk hkm hjk
    unfold pyDictUpdate
    rw [pyDictGet_append, pyDictGet_map_value, hk]
    show pyDictGet (pyDictPop (fileObj ++ jobMeta) "meta") k = some v
    rw [pyDictGet_pop, if_neg hkm, pyDictGet_append, hjk]

/-- Witness for C3 at the concrete fixtures: the file's `release` survives
the conflicting job value, and the job's `genre` fills the gap. -/
theorem import_overlay_file_wins_witness :
    pyDictGet (pyDictUpdate (pyDictPop (pyDictUpdate fileObjW jobMetaW) "meta")
      ([("release", "from-file"), ("sourceLanguage", "en")].map
        (fun p => (p.1, DVal.leaf p.2)))) "release" = some (DVal.leaf "from-file") ∧
    pyDictGet (pyDictUpdate (pyDictPop (pyDictUpdate fileObjW jobMetaW) "meta")
      ([("release", "from-file"), ("sourceLanguage", "en")].map
        (fun p => (p.1, DVal.leaf p.2)))) "genre" = some (DVal.leaf "gen") := by
  have h := import_overlay_file_wins fileObjW jobMetaW
    [("release", "from-file"), ("sourceLanguage", "en")] (by decide) (by decide)
  exact ⟨h.2.1 "release" "from-file" (by decide),
    h.2.2 "genre" (DVal.leaf "gen") (by decide) (by decide) (by decide)⟩

/-- **C8.** An import job that names a target dictionary whose stored access
key does not match the submitter's key terminates in state ERROR with the
forbidden diagnostic in its captured traceback, and the database — the
target dictionary and all entries — is exactly as before: the raise precedes
every delete and insert. -/
theorem import_replace_forbidden (db : Db) (job : FileImportJob)
    (obj : ImportDictObj) (now : String) (oid : String)
    (hdict : job.dict_id = some oid)
    (hown : ∀ d ∈ db.dicts, ¬ (d.api_key = job.api_key ∧ d.mongoId = oid)) :
    process_one_file db job (.ok obj) now =
      ⟨db, .ERROR, some (pyTraceback "E403, forbidden")⟩ := by
  have hfind : db.dicts.find? (fun d =>
      decide (d.api_key = job.api_key) && decide (d.mongoId = oid)) = none := by
    rw [List.find?_eq_none]
    intro d hd
    simp only [Bool.and_eq_true, decide_eq_true_eq, not_and]
    intro h1 h2
    exact hown d hd ⟨h1, h2⟩
  unfold process_one_file create_or_update_dict
  rw [hdict]
  dsimp only
  rw [hfind]

/-- Witness for C8 at the concrete fixtures: replacing `d1` with the wrong
key errors out and leaves `dbW` untouched. -/
theorem import_replace_forbidden_witness :
    process_one_file dbW jobW (.ok objW) "t1" =
      ⟨dbW, .ERROR, some (pyTraceback "E403, forbidden")⟩ :=
  import_replace_forbidden dbW jobW objW "t1" "d1" (by decide) (by decide)

/-- **C4 (amended).** When any step of the linking orchestrator raises, the
persisted job record has state FAILED and a non-empty captured diagnostic,
and its result fields are always written — but they hold null (`None`), not
an empty list, whenever the failure struck before the backend returned a
result; only a failure during origin-id conversion leaves the
already-assigned (partially converted) rows. -/
theorem linking_failure_persists (ex : LinkExec) (p : LinkPhase) (msg : String)
    (hf : ex.failure = some (p, msg)) :
    (process_linking_job ex).state = .FAILED ∧
    (process_linking_job ex).message = pyTraceback msg ∧
    ¬ (process_linking_job ex).message = "" ∧
    (process_linking_job ex).our_result =
      (if p = .convertResults then some ex.partialRows else none) ∧
    (LinkPhase.idx p < 5 →
      (process_linking_job ex).our_result = none ∧
      (process_linking_job ex).origin_result = none) := by
  unfold process_linking_job
  rw [hf]
  refine ⟨rfl, rfl, ?_, rfl, ?_⟩
  · intro h0
    have hlen := congrArg String.length h0
    unfold pyTraceback at hlen
    rw [String.length_append] at hlen
    have h35 : ("Traceback (most recent call last):\n").length = 35 := by decide
    rw [h35] at hlen
    simp at hlen
  · intro hlt
    have hne : ¬ (p = LinkPhase.convertResults) := by
      intro he
      rw [he] at hlt
      simp [LinkPhase.idx] at hlt
    constructor
    · simp [hne]
    · simp [hne]

/-- Counterexample to C4 as stated: an orchestrator run failing at the first
step persists FAILED with `our_result` (and `origin_result`) equal to null —
not to an empty list as the claim requires. -/
theorem linking_failure_result_is_null :
    (process_linking_job exFailEarly).state = .FAILED ∧
    ¬ ((process_linking_job exFailEarly).our_result = some []) ∧
    (process_linking_job exFailEarly).our_result = none ∧
    (process_linking_job exFailEarly).origin_result = none := by
  refine ⟨by decide, by decide, by decide, by decide⟩

/-- Witness for the amended C4 at `exFailEarly` (failure in the first
phase). -/
theorem linking_failure_persists_witness :
    (process_linking_job exFailEarly).state = .FAILED ∧
    (process_linking_job exFailEarly).message = pyTraceback "job not found" ∧
    ¬ (process_linking_job exFailEarly).message = "" ∧
    (process_linking_job exFailEarly).our_result =
      (if LinkPhase.loadJob = LinkPhase.convertResults
        then some exFailEarly.partialRows else none) ∧
    (LinkPhase.idx LinkPhase.loadJob < 5 →
      (process_linking_job exFailEarly).our_result = none ∧
      (process_linking_job exFailEarly).origin_result = none) :=
  linking_failure_persists exFailEarly LinkPhase.loadJob "job not found" (by decide)

/-- **C5 (amended).** When the isolated child process does not complete
within the per-job timeout, the dispatcher logs the failure but performs no
kill — the child (a daemon process) keeps running until the service exits —
and the job record is left in whatever state the child last wrote. -/
theorem worker_timeout_logs_without_kill (jobRecord : String) :
    (worker_step ChildOutcome.runningAtTimeout jobRecord).1 =
      ⟨false, true⟩ ∧
    (worker_step ChildOutcome.runningAtTimeout jobRecord).2 = jobRecord := by
  exact ⟨rfl, rfl⟩

/-- Counterexample to C5 as stated: on timeout the dispatcher does **not**
kill the child process (there is no terminate/kill call in `_worker`); it
only logs the failure. -/
theorem worker_timeout_does_not_kill :
    ¬ ((worker_step ChildOutcome.runningAtTimeout "SCHEDULED").1.killedChild = true) ∧
    (worker_step ChildOutcome.runningAtTimeout "SCHEDULED").1.loggedFailure = true ∧
    (worker_step ChildOutcome.runningAtTimeout "SCHEDULED").2 = "SCHEDULED" := by
  refine ⟨by decide, by decide, by decide⟩

end DictionaryMatrix
